import Mathlib

/-!
Verification of the obsidian-anytype-sync property/wikilink pipeline.

This file gives a shallow embedding, in Lean 4, of the parts of the
repository that the specification's testable properties talk about:

* `src/utils/text-processor.ts`   — `TextProcessor` (sanitization, YAML lines)
* `src/utils/tag-resolver.ts`     — `TagResolver` (TTL-bounded tag cache)
* `src/utils/wikilink-resolver.ts`— `WikilinkResolver` (wikilink translation)
* `src/utils/property-processor.ts` — `PropertyProcessor` (encode pipeline,
  format inference, per-format API formatting)
* `src/constants/property-filters.ts` — the property filter constants
* `src/services/sync-service.ts`  — `SyncService` (frontmatter generation,
  safe import, unique filenames, batch loops)

JavaScript dynamic values are embedded as the inductive `JValue`
(string / number / boolean / array / object / null-or-undefined);
JS numbers are modelled as rationals (`Rat`): NaN is represented by
`Option.none` wherever the source tests `isNaN`.  Time (`Date.now()`)
is passed explicitly as a `Nat` of milliseconds.  Mutable caches are
explicit state records threaded through the functions.
-/

namespace AnySync

/-- A JavaScript runtime value, as it appears in parsed frontmatter and in
decoded Anytype property maps: a string, a finite number, a boolean, an
array, a plain object, or null/undefined. -/
inductive JValue where
  | str (s : String)
  | num (q : Rat)
  | bool (b : Bool)
  | list (xs : List JValue)
  | obj (fields : List (String × JValue))
  | nullV
  deriving Repr

/-- JavaScript truthiness: `''`, `0`, `false`, `null`/`undefined` are falsy
(NaN is represented as a parse failure elsewhere, never as a `JValue`). -/
def jsTruthy : JValue → Bool
  | .str s => s ≠ ""
  | .num q => q ≠ 0
  | .bool b => b
  | .list _ => true
  | .obj _ => true
  | .nullV => false

/-- Whether a `JValue` is a string (JS `typeof value === 'string'`). -/
def JValue.isStr : JValue → Bool
  | .str _ => true
  | _ => false

/-- Whether a `JValue` is an array (JS `Array.isArray`). -/
def JValue.isArr : JValue → Bool
  | .list _ => true
  | _ => false

/-- Whether a `JValue` is null/undefined (`value === null || value === undefined`). -/
def JValue.isNullV : JValue → Bool
  | .nullV => true
  | _ => false

/-- JS strict equality with the empty string (`value === ''`). -/
def JValue.isEmptyStr : JValue → Bool
  | .str s => s = ""
  | _ => false

/-- Whether the first list is a prefix of the second. -/
def charsStartWith : List Char → List Char → Bool
  | [], _ => true
  | _ :: _, [] => false
  | a :: as, b :: bs => a = b && charsStartWith as bs

/-- JS `String.prototype.toLowerCase` (ASCII range; the source only
compares ASCII keywords and tag names). -/
def jsToLower (s : String) : String := String.mk (s.toList.map Char.toLower)

/-- JS `String.prototype.trim`: strip leading and trailing whitespace. -/
def jsTrim (s : String) : String :=
  String.mk (((s.toList.dropWhile Char.isWhitespace).reverse.dropWhile Char.isWhitespace).reverse)

/-- JS `String.prototype.startsWith`. -/
def jsStartsWith (s pat : String) : Bool := charsStartWith pat.toList s.toList

/-- JS `String.prototype.endsWith`. -/
def jsEndsWith (s pat : String) : Bool := charsStartWith pat.toList.reverse s.toList.reverse

/-- Whether `needle` occurs as a contiguous substring of `hay`
(JS `String.prototype.includes`). -/
def jsIncludes (hay needle : String) : Bool :=
  go needle.toList hay.toList
where
  /-- Scan every suffix of the haystack for the needle as a prefix. -/
  go (needle : List Char) : List Char → Bool
    | [] => needle = []
    | c :: cs => charsStartWith needle (c :: cs) || go needle cs

/-- JS `String.prototype.split` on a single-character separator, keeping
empty segments. -/
def splitChars (sep : Char) : List Char → List (List Char)
  | [] => [[]]
  | c :: cs =>
    let rest := splitChars sep cs
    if c = sep then [] :: rest
    else
      match rest with
      | r :: rs => (c :: r) :: rs
      | [] => [[c]]

/-- String-level wrapper of `splitChars`. -/
def jsSplitOn (sep : Char) (s : String) : List String :=
  (splitChars sep s.toList).map String.mk

/-- Global literal replacement (`replace(/pat/g, rep)`): scan left to
right, substituting every occurrence of the (non-empty) pattern. The fuel
is the input length; every step consumes at least one character. -/
def replaceAllChars (pat rep : List Char) : Nat → List Char → List Char
  | 0, l => l
  | _ + 1, [] => []
  | fuel + 1, c :: cs =>
    if pat ≠ [] ∧ charsStartWith pat (c :: cs) then
      rep ++ replaceAllChars pat rep fuel ((c :: cs).drop pat.length)
    else c :: replaceAllChars pat rep fuel cs

/-- String-level wrapper of `replaceAllChars`. -/
def jsReplaceAll (s pat rep : String) : String :=
  String.mk (replaceAllChars pat.toList rep.toList s.toList.length s.toList)

/-- Decimal digit expansion of the fractional remainder `r/d`, emitting up
to `fuel` digits (JS prints the shortest round-tripping representation of a
double; the bound 17 matches its maximum digit count). -/
def fracDigits : Nat → Nat → Nat → String
  | 0, _, _ => ""
  | _ + 1, 0, _ => ""
  | fuel + 1, r, d =>
    let r10 := r * 10
    toString (r10 / d) ++ fracDigits fuel (r10 % d) d

/-- Rendering of a finite JS number as a string (JS `String(number)`).
Exponent notation for very large/small magnitudes is not modelled. -/
def jsNumToString (q : Rat) : String :=
  let sign := if q.num < 0 then "-" else ""
  let a := q.num.natAbs
  let ip := a / q.den
  let rem := a % q.den
  if rem = 0 then sign ++ toString ip
  else sign ++ toString ip ++ "." ++ fracDigits 17 rem q.den

mutual

/-- JS `String(value)` coercion. Arrays stringify their elements joined by
commas with null/undefined elements becoming empty; plain objects become
`[object Object]`. -/
def jsToString : JValue → String
  | .str s => s
  | .num q => jsNumToString q
  | .bool b => if b then "true" else "false"
  | .list xs => jsListToString xs
  | .obj _ => "[object Object]"
  | .nullV => "null"
termination_by structural v => v

/-- Comma-joined stringification used by JS `Array.prototype.toString`
(null/undefined elements render as the empty string). -/
def jsListToString : List JValue → String
  | [] => ""
  | [.nullV] => ""
  | [x] => jsToString x
  | .nullV :: xs => "," ++ jsListToString xs
  | x :: xs => jsToString x ++ "," ++ jsListToString xs
termination_by structural l => l

end

/-- Value of a decimal digit character. -/
def digitVal (c : Char) : Nat := c.toNat - '0'.toNat

/-- Natural number denoted by a list of decimal digit characters. -/
def natOfDigits (l : List Char) : Nat :=
  l.foldl (fun acc c => acc * 10 + digitVal c) 0

/-- Parse the optional exponent suffix of a JS numeric literal; `none`
means the remaining characters do not form a valid (possibly empty)
exponent part, i.e. the whole literal is NaN. -/
def parseExponent : List Char → Option Int
  | [] => some 0
  | c :: r =>
    if c = 'e' ∨ c = 'E' then
      let (sg, digits) : Int × List Char :=
        match r with
        | '-' :: q => (-1, q)
        | '+' :: q => (1, q)
        | _ => (1, r)
      if digits ≠ [] ∧ digits.all Char.isDigit then
        some (sg * (natOfDigits digits : Int))
      else none
    else none

/-- JS `Number(string)` coercion on decimal literals: trimmed-empty input
is `0`, otherwise an optional sign, decimal digits with an optional
fraction, and an optional exponent; anything else is NaN (`none`).
Hexadecimal/octal/binary and `Infinity` literal forms are not modelled. -/
def jsStrToNumber (s : String) : Option Rat :=
  let l := (jsTrim s).toList
  if l = [] then some 0 else
  let (sg, l1) : Rat × List Char :=
    match l with
    | '-' :: r => (-1, r)
    | '+' :: r => (1, r)
    | _ => (1, l)
  let ip := l1.takeWhile Char.isDigit
  let r1 := l1.dropWhile Char.isDigit
  let (fp, r2) : List Char × List Char :=
    match r1 with
    | '.' :: q => (q.takeWhile Char.isDigit, q.dropWhile Char.isDigit)
    | _ => ([], r1)
  if ip = [] ∧ fp = [] then none else
  match parseExponent r2 with
  | none => none
  | some e =>
    some (sg * (natOfDigits (ip ++ fp) : Rat) * (10 : Rat) ^ (e - (fp.length : Int)))

/-- JS `Number(value)` coercion; `none` stands for NaN. Arrays coerce via
their string form, booleans via 1/0, null via 0. -/
def jsToNumber : JValue → Option Rat
  | .num q => some q
  | .str s => jsStrToNumber s
  | .bool b => some (if b then 1 else 0)
  | .nullV => some 0
  | .list xs => jsStrToNumber (jsToString (.list xs))
  | .obj _ => jsStrToNumber "[object Object]"

/-- JSON string escaping for `JSON.stringify`: quote, backslash and the
common control characters. -/
def jsonEscapeChar (c : Char) : String :=
  if c = '"' then "\\\""
  else if c = '\\' then "\\\\"
  else if c = '\n' then "\\n"
  else if c = '\t' then "\\t"
  else if c = '\x0d' then "\\r"
  else String.mk [c]

mutual

/-- JS `JSON.stringify` on a `JValue` (the builtin always succeeds here:
the inductive value cannot contain the cycles that make it throw). -/
def jsonStringify : JValue → String
  | .str s => "\"" ++ String.join (s.toList.map jsonEscapeChar) ++ "\""
  | .num q => jsNumToString q
  | .bool b => if b then "true" else "false"
  | .nullV => "null"
  | .list xs => "[" ++ jsonStringifyList xs ++ "]"
  | .obj fields => "\x7b" ++ jsonStringifyFields fields ++ "\x7d"
termination_by structural v => v

/-- Comma-joined JSON rendering of array elements. -/
def jsonStringifyList : List JValue → String
  | [] => ""
  | [x] => jsonStringify x
  | x :: xs => jsonStringify x ++ "," ++ jsonStringifyList xs
termination_by structural l => l

/-- Comma-joined JSON rendering of object fields. -/
def jsonStringifyFields : List (String × JValue) → String
  | [] => ""
  | [(k, v)] => "\"" ++ String.join (k.toList.map jsonEscapeChar) ++ "\":" ++ jsonStringify v
  | (k, v) :: fs =>
    "\"" ++ String.join (k.toList.map jsonEscapeChar) ++ "\":" ++ jsonStringify v ++ "," ++
      jsonStringifyFields fs
termination_by structural l => l

end

/-- The control characters stripped by `TextProcessor.sanitizeForYaml`
(the regex `[\x00-\x08\x0B\x0C\x0E-\x1F\x7F]`). -/
def isYamlControlChar (c : Char) : Bool :=
  c.toNat ≤ 0x08 ∨ c.toNat = 0x0B ∨ c.toNat = 0x0C ∨
    (0x0E ≤ c.toNat ∧ c.toNat ≤ 0x1F) ∨ c.toNat = 0x7F

/-- `TextProcessor.sanitizeForYaml`: null/undefined pass through as null;
anything else is stringified, stripped of control characters, and cut to
`maxLength` characters. -/
def sanitizeForYaml (v : JValue) (maxLength : Nat := 1000) : Option String :=
  match v with
  | .nullV => none
  | _ => some (String.mk (((jsToString v).toList.filter (fun c => ¬ isYamlControlChar c)).take maxLength))

/-- `TextProcessor.sanitizePropertyValue`: strings are YAML-sanitized;
numbers and booleans pass through; short arrays keep their sanitized
string/number elements; other objects (and over-long arrays) survive only
as a short JSON rendering. -/
def sanitizePropertyValue (v : JValue) : JValue :=
  match v with
  | .nullV => .nullV
  | .str s => match sanitizeForYaml (.str s) with
      | some s' => .str s'
      | none => .nullV
  | .num q => .num q
  | .bool b => .bool b
  | .list xs =>
    if xs.length ≤ 50 then
      let filteredArray := ((xs.filter fun x => x.isStr || (match x with | .num _ => true | _ => false)).filterMap
        fun x => sanitizeForYaml x).map JValue.str
      if filteredArray.length > 0 then .list filteredArray else .nullV
    else
      jsonFallback (.list xs)
  | .obj fields => jsonFallback (.obj fields)
where
  /-- The `typeof value === 'object'` branch: JSON-stringify, keep only if
  at most 500 characters. -/
  jsonFallback (v : JValue) : JValue :=
    let json := jsonStringify v
    if json.length ≤ 500 then
      match sanitizeForYaml (.str json) 500 with
      | some s => .str s
      | none => .nullV
    else .nullV

/-- JS `\s` class approximation used by `sanitizeFilename`. -/
def isJsWhitespace (c : Char) : Bool := c.isWhitespace

/-- Collapse each run of whitespace to a single space
(the `replace(/\s+/g, ' ')` step): a whitespace character followed by more
whitespace is dropped, the last of a run becomes a plain space. -/
def collapseWhitespace : List Char → List Char
  | [] => []
  | [c] => if isJsWhitespace c then [' '] else [c]
  | c :: c2 :: cs =>
    if isJsWhitespace c then
      if isJsWhitespace c2 then collapseWhitespace (c2 :: cs)
      else ' ' :: collapseWhitespace (c2 :: cs)
    else c :: collapseWhitespace (c2 :: cs)

/-- Collapse each run of dashes to a single dash (the dash-run-collapsing
replace step), in the same lookahead style. -/
def collapseDashes : List Char → List Char
  | [] => []
  | [c] => [c]
  | c :: c2 :: cs =>
    if c = '-' ∧ c2 = '-' then collapseDashes (c2 :: cs)
    else c :: collapseDashes (c2 :: cs)

/-- Characters `\/:*?"<>|` replaced with dashes by `sanitizeFilename`. -/
def isInvalidFilenameChar (c : Char) : Bool :=
  c = '\\' ∨ c = '/' ∨ c = ':' ∨ c = '*' ∨ c = '?' ∨ c = '"' ∨ c = '<' ∨ c = '>' ∨ c = '|'

/-- `TextProcessor.sanitizeFilename`: invalid filesystem characters become
dashes, whitespace is normalized, dash runs are collapsed and trimmed from
the ends, empty results become `Untitled`, length capped at 100. -/
def sanitizeFilename (filename : String) : String :=
  if filename = "" then "Untitled" else
  let step1 := filename.toList.map fun c => if isInvalidFilenameChar c then '-' else c
  let step2 := jsTrim (String.mk (collapseWhitespace step1))
  let safeName := if step2 = "" then "Untitled" else step2
  let step3 := collapseDashes safeName.toList
  let step4 := (step3.dropWhile (· = '-')).reverse.dropWhile (· = '-') |>.reverse
  let safeName2 := if step4 = [] then "Untitled" else String.mk step4
  String.mk (safeName2.toList.take 100)

/-- The quoting condition of `TextProcessor.formatYamlLine` for scalar
values: contains `:`, newline, a quote character, or has a leading or
trailing space. -/
def needsYamlQuoting (s : String) : Bool :=
  s.toList.contains ':' ∨ s.toList.contains '\n' ∨ s.toList.contains '"' ∨
    s.toList.contains '\'' ∨ jsStartsWith s " " ∨ jsEndsWith s " "

/-- The quoting condition for YAML array items: the scalar condition plus
looking like a wikilink token. -/
def needsYamlItemQuoting (s : String) : Bool :=
  needsYamlQuoting s ∨ jsStartsWith s "[[" ∨ jsEndsWith s "]]"

/-- The `replace(/"/g, '\\"').replace(/\n/g, '\\n')` escaping step. -/
def escapeYamlValue (s : String) : String :=
  jsReplaceAll (jsReplaceAll s "\"" "\\\"") "\n" "\\n"

/-- One serialized YAML array item line. -/
def yamlItemLine (item : JValue) : String :=
  let itemString := jsToString item
  if needsYamlItemQuoting itemString then
    "- \"" ++ escapeYamlValue itemString ++ "\"\n"
  else
    "- " ++ itemString ++ "\n"

/-- `TextProcessor.formatYamlLine`: arrays become a `key:` line followed by
one `- item` line per element; scalars become a single `key: value` line,
quoted and escaped only when the value is a string needing quoting. -/
def formatYamlLine (key : String) (v : JValue) : String :=
  match v with
  | .list items => key ++ ":\n" ++ String.join (items.map yamlItemLine)
  | _ =>
    let stringValue := jsToString v
    if v.isStr ∧ needsYamlQuoting stringValue then
      key ++ ": \"" ++ escapeYamlValue stringValue ++ "\"\n"
    else
      key ++ ": " ++ stringValue ++ "\n"

/-! Constants from `src/constants/property-filters.ts`. -/

/-- `SYSTEM_PROPERTIES`. -/
def SYSTEM_PROPERTIES : List String :=
  ["id", "space_id", "created_date", "last_modified_date", "last_opened_date", "type_key", "name"]

/-- `READ_ONLY_PROPERTIES`. -/
def READ_ONLY_PROPERTIES : List String :=
  ["links", "backlinks", "created_date", "last_modified_date", "last_opened_date",
   "last_modified_by", "creator", "size_in_bytes", "file_ext", "height_in_pixels",
   "width_in_pixels", "camera_iso", "aperture", "exposure", "focal_ratio"]

/-- `ALLOWED_PROPERTY_FORMATS`. -/
def ALLOWED_PROPERTY_FORMATS : List String := ["text", "number"]

/-- `FRONTMATTER_SKIP_PROPERTIES`. -/
def FRONTMATTER_SKIP_PROPERTIES : List String :=
  ["last_modified_by", "last_opened_date", "creator", "created_date"]

/-! Association-list primitives standing in for JS `Map` (which preserves
insertion order; `set` on an existing key overwrites in place). -/

/-- JS `Map.get` / plain-object property read: first binding wins (keys are
unique in a real `Map`). -/
def assocGet {α : Type} (m : List (String × α)) (k : String) : Option α :=
  match m.find? (fun e => e.1 = k) with
  | some e => some e.2
  | none => none

/-- JS `Map.set` / object property write: overwrite in place if the key is
present, else append. -/
def assocSet {α : Type} (m : List (String × α)) (k : String) (v : α) : List (String × α) :=
  match m with
  | [] => [(k, v)]
  | (k', v') :: rest =>
    if k' = k then (k, v) :: rest else (k', v') :: assocSet rest k v

/-- JS `Map.delete`. -/
def assocErase {α : Type} (m : List (String × α)) (k : String) : List (String × α) :=
  match m with
  | [] => []
  | (k', v') :: rest =>
    if k' = k then rest else (k', v') :: assocErase rest k

/-! `src/utils/tag-resolver.ts` — `TagResolver`. -/

/-- A tag scoped to a select/multi_select property (`TagInfo`). -/
structure TagInfo where
  id : String
  name : String
  color : Option String := none
  deriving Repr, DecidableEq

/-- The mutable state of a `TagResolver`: tag lists and cache timestamps
keyed by property id. -/
structure TagResolver where
  tagCache : List (String × List TagInfo) := []
  cacheTimestamps : List (String × Nat) := []
  deriving Repr

/-- The 5-minute tag-cache TTL in milliseconds (`CACHE_TTL`). -/
def CACHE_TTL : Nat := 5 * 60 * 1000

/-- `TagResolver.setTagsForProperty`: replace the entry and reset its
timestamp to the current time. -/
def setTagsForProperty (now : Nat) (propertyId : String) (tags : List TagInfo)
    (s : TagResolver) : TagResolver :=
  { tagCache := assocSet s.tagCache propertyId tags,
    cacheTimestamps := assocSet s.cacheTimestamps propertyId now }

/-- `TagResolver.getTagsForProperty`: returns the cached list while the
timestamp is fresh, otherwise evicts the entry and returns null. The JS
guard `!timestamp` treats a missing timestamp — or the falsy value 0 — as
stale; `Date.now() - timestamp` is non-positive when the clock moved back,
which never exceeds the TTL, matching truncated `Nat` subtraction. -/
def getTagsForProperty (now : Nat) (propertyId : String) (s : TagResolver) :
    Option (List TagInfo) × TagResolver :=
  let stale :=
    match assocGet s.cacheTimestamps propertyId with
    | none => true
    | some t => t = 0 || now - t > CACHE_TTL
  if stale then
    (none,
     { tagCache := assocErase s.tagCache propertyId,
       cacheTimestamps := assocErase s.cacheTimestamps propertyId })
  else
    (assocGet s.tagCache propertyId, s)

/-- `TagResolver.resolveTagNameToId`: case-insensitive exact name match
against the (fresh) cached tags. -/
def resolveTagNameToId (now : Nat) (propertyId : String) (tagName : String)
    (s : TagResolver) : Option String :=
  match (getTagsForProperty now propertyId s).1 with
  | none => none
  | some tags =>
    match tags.find? (fun t => jsToLower t.name = jsToLower tagName) with
    | some t => some t.id
    | none => none

/-- `TagResolver.resolveTagIdToName`: exact id match against the cached
tags. -/
def resolveTagIdToName (now : Nat) (propertyId : String) (tagId : String)
    (s : TagResolver) : Option String :=
  match (getTagsForProperty now propertyId s).1 with
  | none => none
  | some tags =>
    match tags.find? (fun t => t.id = tagId) with
    | some t => some t.name
    | none => none

/-- `TagResolver.areTagsCached`: a timestamp exists (`!== undefined`, with
no truthiness test here) and its age is at most the TTL. -/
def areTagsCached (now : Nat) (propertyId : String) (s : TagResolver) : Bool :=
  match assocGet s.cacheTimestamps propertyId with
  | none => false
  | some t => now - t ≤ CACHE_TTL

/-! `src/utils/property-processor.ts` — `PropertyProcessor` (the current
version, with format inference and tag resolution). -/

/-- The wire property-value union sent to the API: exactly one branch
populated, keyed by format. -/
inductive PVPayload where
  | text (s : String)
  | number (q : Rat)
  | checkbox (b : Bool)
  | date (s : String)
  | url (s : String)
  | email (s : String)
  | phone (s : String)
  | select (s : String)
  | multi_select (xs : List String)
  | files (xs : List String)
  | objects (xs : List String)
  deriving Repr, DecidableEq

/-- A `PropertyValue` record `{ key, <format branch> }`. -/
structure PropertyValue where
  key : String
  payload : PVPayload
  deriving Repr, DecidableEq

/-- A remote `Property Definition` `{ id, key, format }` (the `name` field
plays no role in the encode pipeline). -/
structure PropertyDef where
  id : String
  key : String
  format : String
  deriving Repr, DecidableEq

/-- `PropertyProcessor.isTagProperty`: the key contains one of the tag-like
keywords (case-insensitive substring), or is exactly `tags`. -/
def isTagProperty (key : String) : Bool :=
  let tagKeywords := ["tag", "tags", "category", "categories", "status", "priority",
                      "type", "label", "labels"]
  let lowerKey := jsToLower key
  tagKeywords.any (fun keyword => jsIncludes lowerKey keyword) || lowerKey = "tags"

/-- Test for the regex `^\d{4}-\d{2}-\d{2}` (an ISO date prefix). -/
def matchesIsoDatePrefix (s : String) : Bool :=
  match s.toList with
  | y1 :: y2 :: y3 :: y4 :: '-' :: m1 :: m2 :: '-' :: d1 :: d2 :: _ =>
    [y1, y2, y3, y4, m1, m2, d1, d2].all Char.isDigit
  | _ => false

/-- Test for the regex `^\d{4}-\d{2}-\d{2}T`. -/
def matchesIsoDatePrefixT (s : String) : Bool :=
  match s.toList with
  | y1 :: y2 :: y3 :: y4 :: '-' :: m1 :: m2 :: '-' :: d1 :: d2 :: 'T' :: _ =>
    [y1, y2, y3, y4, m1, m2, d1, d2].all Char.isDigit
  | _ => false

/-- Test for the regex `^\d{4}-\d{2}-\d{2}$` (a bare date, anchored). -/
def matchesBareIsoDate (s : String) : Bool :=
  match s.toList with
  | [y1, y2, y3, y4, '-', m1, m2, '-', d1, d2] =>
    [y1, y2, y3, y4, m1, m2, d1, d2].all Char.isDigit
  | _ => false

/-- Test for the regex `^\d{4}-\d{2}-\d{2}T\d{2}:\d{2}:\d{2}` (an ISO
datetime prefix). -/
def matchesIsoDateTimePrefix (s : String) : Bool :=
  match s.toList with
  | y1 :: y2 :: y3 :: y4 :: '-' :: m1 :: m2 :: '-' :: d1 :: d2 :: 'T' ::
      h1 :: h2 :: ':' :: n1 :: n2 :: ':' :: s1 :: s2 :: _ =>
    [y1, y2, y3, y4, m1, m2, d1, d2, h1, h2, n1, n2, s1, s2].all Char.isDigit
  | _ => false

/-- Character class of the phone regex `^[\d\s\-+()]+$`. -/
def isPhoneChar (c : Char) : Bool :=
  c.isDigit || c.isWhitespace || c = '-' || c = '+' || c = '(' || c = ')'

/-- `PropertyProcessor.inferPropertyFormat`: the fixed-priority format
inference applied to keys absent from the remote schema. -/
def inferPropertyFormat (key : String) (value : JValue) : Option String :=
  if isTagProperty key ∧ value.isArr then some "multi_select"
  else if isTagProperty key ∧ value.isStr then some "select"
  else if jsToLower key = "tags" then some "multi_select"
  else
    match value with
    | .str s =>
      if matchesIsoDatePrefix s || matchesIsoDatePrefixT s then some "date"
      else if jsStartsWith s "http://" || jsStartsWith s "https://" then some "url"
      else if s.toList.contains '@' ∧ s.toList.contains '.' then some "email"
      else if s.toList ≠ [] ∧ s.toList.all isPhoneChar then some "phone"
      else some "text"
    | .num _ => some "number"
    | .bool _ => some "checkbox"
    | .list _ => some "multi_select"
    | _ => none

/-- Environment oracle for the two JS `Date` builtins the property
formatter relies on: `new Date(string)` general parsing and
`new Date(number).toISOString()`. `none` models an invalid date (NaN
time, or a thrown `RangeError`, which the formatter's catch turns into a
skip). -/
structure JsDateEnv where
  parse : String → Option String
  ofMillis : Rat → Option String

/-- A date environment in which every general date parse fails; the
ISO-prefixed fast paths of the formatter never consult it. -/
def strictDateEnv : JsDateEnv := ⟨fun _ => none, fun _ => none⟩

/-- The shared guard `propertyId && areTagsCached(propertyId)` (an empty
property id is falsy in JS). -/
def tagsCachedFor (now : Nat) (resolver : TagResolver) : Option String → Bool
  | some pid => pid ≠ "" && areTagsCached now pid resolver
  | none => false

/-- The trimmed, non-empty string items of a JS array value
(`filter(v !== null/undefined/'') . map(String(v).trim()) . filter(length > 0)`). -/
def arrayItemsOf (xs : List JValue) : List String :=
  ((xs.filter fun v => !v.isNullV && !v.isEmptyStr).map
    (fun v => jsTrim (jsToString v))).filter (fun v => v.length > 0)

/-- The trimmed, non-empty items of a comma-separated string
(`split(',').map(trim).filter(length > 0)`). -/
def splitItemsOf (s : String) : List String :=
  ((jsSplitOn ',' s).map jsTrim).filter (fun v => v.length > 0)

/-- The list-or-comma-separated-string reading shared by the
multi_select, files and objects branches: a JS array yields its cleaned
items, a string is split on commas, anything else is rejected. -/
def idItemsOf (value : JValue) : Option (List String) :=
  match value with
  | .list xs => some (arrayItemsOf xs)
  | .str s => some (splitItemsOf s)
  | _ => none

/-- The multi_select tail of `processTagProperty` once the array items are
known: reject an empty list, then resolve each name to a tag id when the
property's tags are cached, preserving unresolved names verbatim. -/
def multiSelectPayload (now : Nat) (resolver : TagResolver)
    (propertyId : Option String) (arrayValue : List String) : Option PVPayload :=
  if arrayValue.length = 0 then none
  else if tagsCachedFor now resolver propertyId then
    some (.multi_select (arrayValue.map fun tagName =>
      match resolveTagNameToId now (propertyId.getD "") tagName resolver with
      | some tagId => tagId
      | none => tagName))
  else some (.multi_select arrayValue)

/-- The branch payload of `PropertyProcessor.processTagProperty`: unified
select/multi_select formatting with best-effort tag-name→id resolution
(unresolved names are preserved verbatim). `isMulti` selects the
multi_select branch; the source's `selectValue` local is written out as
`jsTrim (jsToString value)`, and the `{ key, … }` record the source builds
in every branch is added by the `processTagProperty` wrapper below. -/
def processTagPayload (now : Nat) (resolver : TagResolver)
    (value : JValue) (isMulti : Bool) (propertyId : Option String) : Option PVPayload :=
  if !isMulti then
    if (jsTrim (jsToString value)).length = 0 then none
    else if tagsCachedFor now resolver propertyId then
      match resolveTagNameToId now (propertyId.getD "") (jsTrim (jsToString value)) resolver with
      | some tagId => some (.select tagId)
      | none => some (.select (jsTrim (jsToString value)))
    else some (.select (jsTrim (jsToString value)))
  else
    match idItemsOf value with
    | none => none
    | some arrayValue => multiSelectPayload now resolver propertyId arrayValue

/-- `PropertyProcessor.processTagProperty`: the payload paired with the
property key. -/
def processTagProperty (env : JsDateEnv) (now : Nat) (resolver : TagResolver)
    (key : String) (value : JValue) (isMulti : Bool) (propertyId : Option String) :
    Option PropertyValue :=
  (processTagPayload now resolver value isMulti propertyId).map fun p => ⟨key, p⟩

/-- The branch payload of `PropertyProcessor.formatForAPI`: format one
frontmatter value according to the (declared or inferred) format string.
`none` means the value is skipped (null/undefined/empty, unparseable, or
an unsupported format); the `{ key, … }` record the source builds in every
branch is added by the `formatForAPI` wrapper below. The
`instanceof Date` branch of the date case is unreachable here because
parsed frontmatter never holds `Date` objects; the source's string locals
(`urlString`, `emailString`) are written out inline. -/
def formatPayload (env : JsDateEnv) (now : Nat) (resolver : TagResolver)
    (value : JValue) (format : String) (propertyId : Option String) :
    Option PVPayload :=
  if value.isNullV then none
  else if value.isEmptyStr then none
  else if format = "text" then
    some (.text (jsToString value))
  else if format = "number" then
    match (match value with | .num q => some q | v => jsToNumber v) with
    | none => none
    | some q => some (.number q)
  else if format = "checkbox" then
    some (.checkbox (match value with
      | .bool b => b
      | .str s => jsToLower s = "true" || s = "1" || s = "yes"
      | .num q => q ≠ 0
      | v => jsTruthy v))
  else if format = "date" then
    match value with
    | .str s =>
      if matchesIsoDateTimePrefix s then some (.date s)
      else if matchesBareIsoDate s then some (.date (s ++ "T00:00:00.000Z"))
      else
        match env.parse s with
        | some iso => some (.date iso)
        | none => none
    | .num q =>
      match env.ofMillis q with
      | some iso => some (.date iso)
      | none => none
    | _ => none
  else if format = "url" then
    if jsStartsWith (jsToString value) "http://" || jsStartsWith (jsToString value) "https://" ||
        jsStartsWith (jsToString value) "ftp://" || jsStartsWith (jsToString value) "mailto:" then
      some (.url (jsToString value))
    else if jsIncludes (jsToString value) "." && !(jsIncludes (jsToString value) " ") then
      some (.url ("https://" ++ jsToString value))
    else none
  else if format = "email" then
    if jsIncludes (jsTrim (jsToString value)) "@" && jsIncludes (jsTrim (jsToString value)) "." then
      some (.email (jsTrim (jsToString value)))
    else none
  else if format = "phone" then
    some (.phone (jsTrim (jsToString value)))
  else if format = "select" then
    processTagPayload now resolver value false propertyId
  else if format = "multi_select" then
    processTagPayload now resolver value true propertyId
  else if format = "files" then
    match idItemsOf value with
    | none => none
    | some fileIds =>
      if fileIds.length = 0 then none else some (.files fileIds)
  else if format = "objects" then
    match idItemsOf value with
    | none => none
    | some objectIds =>
      if objectIds.length = 0 then none else some (.objects objectIds)
  else none

/-- `PropertyProcessor.formatForAPI`: the payload paired with the property
key. -/
def formatForAPI (env : JsDateEnv) (now : Nat) (resolver : TagResolver)
    (key : String) (value : JValue) (format : String) (propertyId : Option String) :
    Option PropertyValue :=
  (formatPayload env now resolver value format propertyId).map fun p => ⟨key, p⟩

/-- Building the `propertyMap` from the available property definitions
(`Map.set` in insertion order: a later duplicate key overwrites). -/
def propLookup (availableProperties : List PropertyDef) (key : String) : Option PropertyDef :=
  availableProperties.foldl (fun acc p => if p.key = key then some p else acc) none

/-- `PropertyProcessor.extractFromFrontmatter`: encode a frontmatter map
for an API update. System properties are skipped when requested, read-only
properties unconditionally; keys with a known definition are encoded only
under the allowed formats; unknown keys go through format inference, and
keys whose format cannot be inferred are preserved locally (emitted to the
log only, dropped from the API list). -/
def extractFromFrontmatter (env : JsDateEnv) (now : Nat) (resolver : TagResolver)
    (frontmatter : List (String × JValue)) (availableProperties : List PropertyDef)
    (skipSystemProperties : Bool := true) : List PropertyValue :=
  match frontmatter with
  | [] => []
  | (key, value) :: rest =>
    let tail := extractFromFrontmatter env now resolver rest availableProperties skipSystemProperties
    if skipSystemProperties && SYSTEM_PROPERTIES.contains key then tail
    else if READ_ONLY_PROPERTIES.contains key then tail
    else
      match propLookup availableProperties key with
      | none =>
        match inferPropertyFormat key value with
        | some inferredFormat =>
          match formatForAPI env now resolver key value inferredFormat none with
          | some formattedProperty => formattedProperty :: tail
          | none => tail
        | none => tail
      | some propertyDef =>
        if !(ALLOWED_PROPERTY_FORMATS.contains propertyDef.format) then tail
        else
          match formatForAPI env now resolver key value propertyDef.format (some propertyDef.id) with
          | some formattedProperty => formattedProperty :: tail
          | none => tail

/-- `PropertyProcessor.buildValidatedProperties`: the object-creation twin
of `extractFromFrontmatter`, with the same skip/inference/formatting
pipeline. -/
def buildValidatedProperties (env : JsDateEnv) (now : Nat) (resolver : TagResolver)
    (noteFrontmatter : List (String × JValue)) (availableProperties : List PropertyDef)
    (skipSystemProperties : Bool := true) : List PropertyValue :=
  match noteFrontmatter with
  | [] => []
  | (key, value) :: rest =>
    let tail := buildValidatedProperties env now resolver rest availableProperties skipSystemProperties
    if skipSystemProperties && SYSTEM_PROPERTIES.contains key then tail
    else if READ_ONLY_PROPERTIES.contains key then tail
    else
      match propLookup availableProperties key with
      | none =>
        match inferPropertyFormat key value with
        | some inferredFormat =>
          match formatForAPI env now resolver key value inferredFormat none with
          | some formattedProperty => formattedProperty :: tail
          | none => tail
        | none => tail
      | some propertyDef =>
        if !(ALLOWED_PROPERTY_FORMATS.contains propertyDef.format) then tail
        else
          match formatForAPI env now resolver key value propertyDef.format (some propertyDef.id) with
          | some formattedProperty => formattedProperty :: tail
          | none => tail

/-! `src/utils/wikilink-resolver.ts` — `WikilinkResolver`. -/

/-- A wikilink cache entry: the Anytype object id and space id indexed
under a note title. -/
structure ObjInfo where
  objectId : String
  spaceId : String
  deriving Repr, DecidableEq

/-- The wikilink cache: note title → object info, in insertion order. -/
def NoteCache : Type := List (String × ObjInfo)

/-- Match the wikilink regex `\[\[([^\]|]+)(?:\|([^\]]+))?\]\]` at the
start of the character list: returns the link target, the optional display
text and the characters after the match. The character classes exclude the
closing delimiters, so the greedy quantifiers are deterministic. -/
def tryMatch (cs : List Char) : Option (List Char × Option (List Char) × List Char) :=
  match cs with
  | '[' :: '[' :: cs1 =>
    let t := cs1.takeWhile fun c => c ≠ ']' ∧ c ≠ '|'
    let cs2 := cs1.dropWhile fun c => c ≠ ']' ∧ c ≠ '|'
    if t.isEmpty then none else
    match cs2 with
    | '|' :: cs3 =>
      let d := cs3.takeWhile fun c => c ≠ ']'
      let cs4 := cs3.dropWhile fun c => c ≠ ']'
      if d.isEmpty then none else
      match cs4 with
      | ']' :: ']' :: rest => some (t, some d, rest)
      | _ => none
    | ']' :: ']' :: rest => some (t, none, rest)
    | _ => none
  | _ => none

/-- The exact characters a successful `tryMatch` consumed (the regex's
whole-match text `[[target]]` or `[[target|display]]`). -/
def renderLink (t : List Char) (d : Option (List Char)) : List Char :=
  '[' :: '[' :: (t ++ (match d with | some d' => '|' :: d' | none => []) ++ [']', ']'])

/-- `WikilinkResolver.findObjectByName`: exact title match, then the first
case-insensitive match, then the first substring match in either
direction, in cache insertion order. -/
def findObjectByName (cache : NoteCache) (noteName : String) : Option ObjInfo :=
  match assocGet cache noteName with
  | some info => some info
  | none =>
    match cache.find? (fun e => jsToLower e.1 = jsToLower noteName) with
    | some e => some e.2
    | none =>
      match cache.find? (fun e => jsIncludes e.1 noteName || jsIncludes noteName e.1) with
      | some e => some e.2
      | none => none

/-- The replacement callback of `convertWikilinksToAnyTypeUrls`: rewrite
to an `anytype://` markdown link when the target resolves to an object in
the current space, else keep the original wikilink text. -/
def replaceWikilink (cache : NoteCache) (currentSpaceId : String)
    (t : List Char) (d : Option (List Char)) : List Char :=
  let displayName := String.mk (d.getD t)
  let cleanTarget := jsTrim (String.mk t)
  match findObjectByName cache cleanTarget with
  | some objectInfo =>
    if objectInfo.spaceId = currentSpaceId then
      ("[" ++ displayName ++ "](anytype://object?objectId=" ++ objectInfo.objectId ++
        "&spaceId=" ++ objectInfo.spaceId ++ ")").toList
    else renderLink t d
  | none => renderLink t d

/-- The global regex replace of `convertWikilinksToAnyTypeUrls`: scan
left to right, replacing each wikilink match and resuming after it. The
`fuel` argument makes the recursion structural; every step consumes at
least one character, so fuel equal to the input length (as passed by
`convertChars`) never runs out. -/
def convertCharsFuel (cache : NoteCache) (currentSpaceId : String) : Nat → List Char → List Char
  | 0, l => l
  | _ + 1, [] => []
  | fuel + 1, c :: cs =>
    match tryMatch (c :: cs) with
    | some (t, d, rest) =>
      replaceWikilink cache currentSpaceId t d ++ convertCharsFuel cache currentSpaceId fuel rest
    | none => c :: convertCharsFuel cache currentSpaceId fuel cs

/-- The scan applied to a whole character list. -/
def convertChars (cache : NoteCache) (currentSpaceId : String) (l : List Char) : List Char :=
  convertCharsFuel cache currentSpaceId l.length l

/-- The link targets of a text, extracted by the same fuelled scan that
the replace performs (one entry per regex match, in order). -/
def linkTargetsFuel : Nat → List Char → List (List Char)
  | 0, _ => []
  | _ + 1, [] => []
  | fuel + 1, c :: cs =>
    match tryMatch (c :: cs) with
    | some (t, _, rest) => t :: linkTargetsFuel fuel rest
    | none => linkTargetsFuel fuel cs

/-- The link targets of a whole character list. -/
def linkTargets (l : List Char) : List (List Char) :=
  linkTargetsFuel l.length l

/-- Whether a link target fails to resolve to an object of the current
space (object not found, or found in a different space) — the condition
under which the source keeps the original wikilink. -/
def unresolvedFor (cache : NoteCache) (currentSpaceId : String) (t : List Char) : Bool :=
  match findObjectByName cache (jsTrim (String.mk t)) with
  | none => true
  | some objectInfo => objectInfo.spaceId ≠ currentSpaceId

/-- `WikilinkResolver.convertWikilinksToAnyTypeUrls`, including the
defensive input guard (`return markdown || ''` for falsy or non-string
input) and the top-level catch (return the original text on any internal
error). The cache-refresh collaborator is passed in as an `Except`: an
exception raised while rebuilding the cache from the vault is the error
case the catch absorbs. -/
def convertWikilinksToAnyTypeUrls (refreshedCache : Except String NoteCache)
    (markdown : JValue) (currentSpaceId : String) : JValue :=
  if !(jsTruthy markdown) || !markdown.isStr then
    (if jsTruthy markdown then markdown else .str "")
  else
    match markdown with
    | .str s =>
      match refreshedCache with
      | .ok cache => .str (String.mk (convertChars cache currentSpaceId s.toList))
      | .error _ => .str s
    | v => v

/-! `src/services/sync-service.ts` — `SyncService`. -/

/-- A remote Anytype object as the sync service consumes it. JS fields
that may be absent are modelled with `""` (falsy) defaults; `properties`
holds the already-decoded display values. -/
structure AnyTypeObject where
  id : String
  space_id : String
  type_key : String
  name : String
  markdown : String := ""
  properties : List (String × JValue) := []

/-- `SyncService.isValidYamlKey`: non-empty and at most 100 characters. -/
def isValidYamlKey (key : String) : Bool :=
  key ≠ "" && key.length ≤ 100

/-- `SyncService.isSystemProperty`: membership in
`FRONTMATTER_SKIP_PROPERTIES`. -/
def isSystemProperty (key : String) : Bool :=
  FRONTMATTER_SKIP_PROPERTIES.contains key

/-- The JS `x || dflt` fallback on an optional sanitized string (both
`null` and `''` are falsy). -/
def jsOrDefault (o : Option String) (dflt : String) : String :=
  match o with
  | some s => if s = "" then dflt else s
  | none => dflt

/-- The four core identity fields, sanitized, as the frontmatter record is
seeded (`name` falls back to `Untitled`). -/
def coreFrontmatter (object : AnyTypeObject) : List (String × JValue) :=
  [("id", .str ((sanitizeForYaml (.str object.id)).getD "")),
   ("space_id", .str ((sanitizeForYaml (.str object.space_id)).getD "")),
   ("type_key", .str ((sanitizeForYaml (.str object.type_key)).getD "")),
   ("name", .str (jsOrDefault (sanitizeForYaml (.str object.name)) "Untitled"))]

/-- The property-loop of `generateYamlFrontmatter`: skip frontmatter-skip
properties when requested, validate key and value, sanitize, and write
into the record with JS object-assignment semantics. -/
def addObjectProperties (skipSystemProperties : Bool)
    (record : List (String × JValue)) : List (String × JValue) → List (String × JValue)
  | [] => record
  | (key, value) :: rest =>
    if skipSystemProperties && isSystemProperty key then
      addObjectProperties skipSystemProperties record rest
    else if isValidYamlKey key && !value.isNullV then
      match sanitizePropertyValue value with
      | .nullV => addObjectProperties skipSystemProperties record rest
      | sanitizedValue =>
        addObjectProperties skipSystemProperties (assocSet record key sanitizedValue) rest
    else addObjectProperties skipSystemProperties record rest

/-- The preserved-property loop of `generateYamlFrontmatter`: only keys
that are not object properties, not core fields and valid survive. -/
def addPreservedProperties (object : AnyTypeObject)
    (record : List (String × JValue)) : List (String × JValue) → List (String × JValue)
  | [] => record
  | (key, value) :: rest =>
    if !((object.properties.map Prod.fst).contains key) &&
        !((["id", "space_id", "type_key", "name"] : List String).contains key) &&
        isValidYamlKey key then
      match sanitizePropertyValue value with
      | .nullV => addPreservedProperties object record rest
      | sanitizedValue => addPreservedProperties object (assocSet record key sanitizedValue) rest
    else addPreservedProperties object record rest

/-- The YAML-emission loop: one formatted line appended per record entry
(null values are skipped; the record never contains them, but the source
checks again). -/
def yamlLinesOf : List (String × JValue) → String
  | [] => ""
  | e :: rest =>
    (if e.2.isNullV then "" else formatYamlLine e.1 e.2) ++ yamlLinesOf rest

/-- The minimal fallback frontmatter of the catch branch — note the
source's literal quotes around `type_key` in the fallback template. -/
def fallbackFrontmatter (object : AnyTypeObject) : String :=
  "---\nid: " ++ jsOrDefault (sanitizeForYaml (.str object.id)) "unknown" ++
  "\nspace_id: " ++ jsOrDefault (sanitizeForYaml (.str object.space_id)) "unknown" ++
  "\n'type_key': " ++ jsOrDefault (sanitizeForYaml (.str object.type_key)) "page" ++
  "\nname: " ++ jsOrDefault (sanitizeForYaml (.str object.name)) "Untitled" ++
  "\n---\n\n"

/-- `SyncService.generateYamlFrontmatter`. `serializationError` models a
JS runtime exception raised inside the `try` block while serializing the
object's properties (the explicit validation throw is the in-model error
source; the catch treats both alike and answers with the minimal fallback
header). -/
def generateYamlFrontmatter (serializationError : Bool) (object : AnyTypeObject)
    (skipSystemProperties : Bool := true)
    (preservedProperties : Option (List (String × JValue)) := none) : String :=
  if object.id = "" ∨ object.space_id = "" ∨ object.type_key = "" then
    fallbackFrontmatter object
  else if serializationError then
    fallbackFrontmatter object
  else
    let record0 := coreFrontmatter object
    let record1 :=
      if object.properties.length > 0 then
        addObjectProperties skipSystemProperties record0 object.properties
      else record0
    let record2 :=
      match preservedProperties with
      | some preserved => addPreservedProperties object record1 preserved
      | none => record1
    "---\n" ++ yamlLinesOf record2 ++ "---\n\n"

/-- The lazy search for the closing `---` of the frontmatter-splitting
regex `^---[\s\S]*?---\n\n?([\s\S]*)$`: the first position at which
`---\n` occurs wins; returns the characters after it. -/
def findClose : List Char → Option (List Char)
  | '-' :: '-' :: '-' :: '\n' :: rest => some rest
  | _ :: cs => findClose cs
  | [] => none

/-- The optional extra newline `\n?` after the closing marker. -/
def dropOptionalNewline : List Char → List Char
  | '\n' :: rest => rest
  | rest => rest

/-- The body extraction of the safe-import branch of
`SyncService.updateExistingNote`: everything after the frontmatter block
when the regex matches, else the whole content. -/
def extractExistingBody (content : String) : String :=
  match content.toList with
  | '-' :: '-' :: '-' :: rest =>
    match findClose rest with
    | some after => String.mk (dropOptionalNewline after)
    | none => content
  | _ => content

/-- `SyncService.extractPreservedPropertiesForImport`: the existing note's
frontmatter entries that are neither core fields nor object properties and
carry a non-null value. -/
def extractPreservedPropertiesForImport (existingFrontmatter : List (String × JValue))
    (object : AnyTypeObject) : List (String × JValue) :=
  existingFrontmatter.filter fun e =>
    !(["id", "space_id", "type_key", "name"].contains e.1) &&
    !((object.properties.map Prod.fst).contains e.1) &&
    !e.2.isNullV

/-- The frontmatter a safe import writes, as assembled by
`createOrUpdateObsidianNote` (preserved custom properties are passed only
when non-empty). -/
def safeImportYaml (serializationError : Bool) (object : AnyTypeObject)
    (skipSystemProperties : Bool) (existingFrontmatter : List (String × JValue)) : String :=
  let preserved := extractPreservedPropertiesForImport existingFrontmatter object
  generateYamlFrontmatter serializationError object skipSystemProperties
    (if preserved.length > 0 then some preserved else none)

/-- The full content written by the safe-import branch of
`updateExistingNote`: new frontmatter followed by the existing body,
byte for byte. -/
def safeImportUpdatedContent (serializationError : Bool) (object : AnyTypeObject)
    (skipSystemProperties : Bool) (existingFrontmatter : List (String × JValue))
    (existingContent : String) : String :=
  safeImportYaml serializationError object skipSystemProperties existingFrontmatter ++
    extractExistingBody existingContent

/-- Decidable summary that a generated header opens with `---` and that
the first `---\n` occurrence after it is the final closing marker followed
by exactly the blank separator line — the shape under which appending a
body round-trips. -/
def headerClosesCleanly (header : String) : Bool :=
  match header.toList with
  | '-' :: '-' :: '-' :: rest =>
    match findClose rest with
    | some ['\n'] => true
    | _ => false
  | _ => false

/-! Unique-filename generation (`SyncService.generateUniqueFilename`). -/

/-- A vault file: its path and the frontmatter the metadata cache reports
for it. -/
structure VaultFile where
  path : String
  frontmatter : List (String × JValue) := []

/-- JS truthiness of a frontmatter field (`frontmatter.id`,
`frontmatter.space_id`): an absent key is `undefined`, hence falsy. -/
def jsTruthyAt (fm : List (String × JValue)) (key : String) : Bool :=
  match assocGet fm key with
  | some v => jsTruthy v
  | none => false

/-- `vault.getAbstractFileByPath`. -/
def getAbstractFileByPath (vault : List VaultFile) (path : String) : Option VaultFile :=
  vault.find? (fun f => f.path = path)

/-- Path construction for a candidate filename (Obsidian's
`normalizePath` is modelled as the plain join, its argument already being
normalized). -/
def targetPathFor (importFolder : String) (name : String) : String :=
  if jsTrim importFolder ≠ "" then jsTrim importFolder ++ "/" ++ name ++ ".md"
  else name ++ ".md"

/-- The bounded counter loop (`while counter <= maxCounter` with
`maxCounter = 1000`): `fuel` is the number of counter values still below
the bound, so the loop exits with `none` exactly when the counter passes
1000. -/
def counterSearchFuel (vault : List VaultFile) (importFolder : String) (safeName : String) :
    Nat → Nat → Option String
  | 0, _ => none
  | fuel + 1, counter =>
    let testName := safeName ++ " " ++ toString counter
    if (getAbstractFileByPath vault (targetPathFor importFolder testName)).isNone then
      some testName
    else counterSearchFuel vault importFolder safeName fuel (counter + 1)

/-- The counter loop started at `counter = 1`. -/
def counterSearch (vault : List VaultFile) (importFolder : String) (safeName : String) :
    Option String :=
  counterSearchFuel vault importFolder safeName 1000 1

/-- `SyncService.generateUniqueFilename`: returns the chosen filename,
whether there was a conflict, and whether the conflicting note was manual
(carries neither truthy `id` nor truthy `space_id`). The vault is only
read — no file is modified or renamed. `now` is the `Date.now()` value
used by the timestamp fallback. -/
def generateUniqueFilename (vault : List VaultFile) (now : Nat) (baseName : String)
    (importFolder : String := "") : String × Bool × Bool :=
  let baseName := if baseName = "" then "Untitled" else baseName
  let safeName := sanitizeFilename baseName
  let targetPath := targetPathFor importFolder safeName
  match getAbstractFileByPath vault targetPath with
  | none => (safeName, false, false)
  | some existingFile =>
    let fm := existingFile.frontmatter
    let isManualNote := !jsTruthyAt fm "id" && !jsTruthyAt fm "space_id"
    match counterSearch vault importFolder safeName with
    | some testName => (testName, true, isManualNote)
    | none => (safeName ++ " " ++ toString now, true, isManualNote)

/-! Batch statistics (`syncFromAnyType` object-processor callback and the
`syncAllNotes` per-file loop). -/

/-- Per-type created/updated/failed counters. -/
structure TypeStats where
  created : Nat := 0
  updated : Nat := 0
  failed : Nat := 0
  deriving Repr, DecidableEq

/-- The accumulating statistics of a bulk import. -/
structure SyncStats where
  created : Nat := 0
  updated : Nat := 0
  failed : Nat := 0
  byType : List (String × TypeStats) := []
  deriving Repr, DecidableEq

/-- `SyncService.initializeSyncStatistics`. -/
def initializeSyncStatistics (objectTypes : List String) : SyncStats :=
  { byType := objectTypes.map fun t => (t, {}) }

/-- The outcome of processing one streamed object: its type key, and
either the created/updated distinction (`true` means an existing note was
found and updated) or the error thrown. -/
structure ObjectOutcome where
  typeKey : String
  outcome : Except String Bool

/-- Update a per-type counter only if the type was pre-registered
(`if (syncStats.byType[objectType])`). -/
def bumpByType (byType : List (String × TypeStats)) (typeKey : String)
    (f : TypeStats → TypeStats) : List (String × TypeStats) :=
  match assocGet byType typeKey with
  | some ts => assocSet byType typeKey (f ts)
  | none => byType

/-- One step of the `createObjectProcessorCallback` stream: catch a
per-object failure, count it, and carry on — the statistics update of the
source's try/catch body. -/
def processOneObject (stats : SyncStats) (item : ObjectOutcome) : SyncStats :=
  let objectType := if item.typeKey = "" then "unknown" else item.typeKey
  match item.outcome with
  | .ok existingFile =>
    if existingFile then
      { stats with updated := stats.updated + 1,
                   byType := bumpByType stats.byType objectType fun ts => { ts with updated := ts.updated + 1 } }
    else
      { stats with created := stats.created + 1,
                   byType := bumpByType stats.byType objectType fun ts => { ts with created := ts.created + 1 } }
  | .error _ =>
    { stats with failed := stats.failed + 1,
                 byType := bumpByType stats.byType objectType fun ts => { ts with failed := ts.failed + 1 } }

/-- The whole streamed bulk import: objects arrive one at a time and fold
into the statistics; no outcome aborts the stream. -/
def runBulkImport (objectTypes : List String) (items : List ObjectOutcome) : SyncStats :=
  items.foldl processOneObject (initializeSyncStatistics objectTypes)

/-- The result record of the bulk operations (`SyncResult`). -/
structure SyncResult where
  created : Nat
  updated : Nat
  failed : Nat
  skipped : Nat
  deriving Repr, DecidableEq

/-- The per-file loop of `SyncService.syncAllNotes`: try each eligible
file, count a success or a failure, never abort. -/
def syncAllNotesLoop : List (Except String Unit) → Nat → Nat → Nat × Nat
  | [], synced, failed => (synced, failed)
  | .ok _ :: rest, synced, failed => syncAllNotesLoop rest (synced + 1) failed
  | .error _ :: rest, synced, failed => syncAllNotesLoop rest synced (failed + 1)

/-- `SyncService.syncAllNotes` over the per-file outcomes of the eligible
notes (`totalFiles` counts every markdown file in the vault). -/
def syncAllNotes (totalFiles : Nat) (outcomes : List (Except String Unit)) : SyncResult :=
  if outcomes.length = 0 then
    { created := 0, updated := 0, failed := 0, skipped := totalFiles }
  else
    let skipped := totalFiles - outcomes.length
    let (synced, failed) := syncAllNotesLoop outcomes 0 0
    { created := 0, updated := synced, failed := failed, skipped := skipped }

/-! Helper lemmas about the association-list primitives. Real JS `Map`s
and objects never hold duplicate keys, so the lemmas that need uniqueness
assume it. -/

theorem assocGet_assocSet_self {α : Type} (m : List (String × α)) (k : String) (v : α) :
    assocGet (assocSet m k v) k = some v := by
  induction m with
  | nil => simp [assocSet, assocGet]
  | cons e rest ih =>
    by_cases h : e.1 = k
    · simp [assocSet, assocGet, h]
    · simpa [assocSet, assocGet, List.find?, h] using ih

theorem assocGet_eq_none_of_not_mem {α : Type} (m : List (String × α)) (k : String)
    (h : ¬ k ∈ m.map Prod.fst) : assocGet m k = none := by
  induction m with
  | nil => rfl
  | cons e rest ih =>
    simp only [List.map_cons, List.mem_cons, not_or] at h
    have he : (decide (e.1 = k)) = false := by
      simp only [decide_eq_false_iff_not]
      exact fun hh => h.1 hh.symm
    simp only [assocGet, List.find?, he] at ih ⊢
    exact ih h.2

theorem keys_assocSet {α : Type} (m : List (String × α)) (k : String) (v : α)
    (hk : k ∈ m.map Prod.fst) :
    (assocSet m k v).map Prod.fst = m.map Prod.fst := by
  induction m with
  | nil => simp at hk
  | cons e rest ih =>
    by_cases h : e.1 = k
    · simp [assocSet, h]
    · simp only [List.map_cons, List.mem_cons] at hk
      rcases hk with hk | hk
      · exact absurd hk.symm h
      · simp [assocSet, h, ih hk]

theorem keys_assocSet_not_mem {α : Type} (m : List (String × α)) (k : String) (v : α)
    (hk : ¬ k ∈ m.map Prod.fst) :
    (assocSet m k v).map Prod.fst = m.map Prod.fst ++ [k] := by
  induction m with
  | nil => simp [assocSet]
  | cons e rest ih =>
    simp only [List.map_cons, List.mem_cons, not_or] at hk
    have h : e.1 ≠ k := fun hh => hk.1 hh.symm
    simp [assocSet, h, ih hk.2]

theorem nodup_keys_assocSet {α : Type} (m : List (String × α)) (k : String) (v : α)
    (h : (m.map Prod.fst).Nodup) : ((assocSet m k v).map Prod.fst).Nodup := by
  by_cases hk : k ∈ m.map Prod.fst
  · rw [keys_assocSet m k v hk]; exact h
  · rw [keys_assocSet_not_mem m k v hk]
    refine List.Nodup.append h (List.nodup_singleton k) ?_
    intro a ha hb
    simp only [List.mem_singleton] at hb
    subst hb
    exact hk ha

theorem assocGet_assocErase_self {α : Type} (m : List (String × α)) (k : String)
    (h : (m.map Prod.fst).Nodup) : assocGet (assocErase m k) k = none := by
  induction m with
  | nil => rfl
  | cons e rest ih =>
    simp only [List.map_cons, List.nodup_cons] at h
    by_cases he : e.1 = k
    · rw [assocErase, if_pos he]
      exact assocGet_eq_none_of_not_mem rest k (he ▸ h.1)
    · have hed : (decide (e.1 = k)) = false := by simpa using he
      rw [assocErase, if_neg he]
      simp only [assocGet, List.find?, hed] at ih ⊢
      exact ih h.2

/-! Claim C1 — format inference on schema-absent keys. -/

/-- C1 counterexample: the claim says `{homepage: "example.com"}` infers
`url`, but `inferPropertyFormat` only infers `url` for strings already
starting with `http://` or `https://`; `example.com` falls through to
`text`. -/
theorem C1_counterexample :
    inferPropertyFormat "homepage" (JValue.str "example.com") = some "text" ∧
    some "text" ≠ some "url" := ⟨by decide, by decide⟩

/-- C1 (amended): `{tags: ["a","b"]}` infers `multi_select`,
`{due: "2024-01-01"}` infers `date`, `{note: 42}` infers `number` — but
`{homepage: "example.com"}` infers `text` and is encoded as the text value
`example.com`; the `https://` auto-prepend belongs to the `url` branch of
`formatForAPI`, which does produce `https://example.com` when the `url`
format is declared. -/
theorem C1_format_inference_amended :
    inferPropertyFormat "tags" (.list [.str "a", .str "b"]) = some "multi_select" ∧
    inferPropertyFormat "due" (.str "2024-01-01") = some "date" ∧
    inferPropertyFormat "homepage" (.str "example.com") = some "text" ∧
    extractFromFrontmatter strictDateEnv 0 {} [("homepage", .str "example.com")] [] true
      = [⟨"homepage", .text "example.com"⟩] ∧
    formatForAPI strictDateEnv 0 {} "homepage" (.str "example.com") "url" none
      = some ⟨"homepage", .url "https://example.com"⟩ ∧
    inferPropertyFormat "note" (.num 42) = some "number" := by
  refine ⟨by decide, by decide, by decide, by decide, by decide, by decide⟩

/-! Claim C6 — tag cache TTL behaviour. -/

/-- C6: after `setTags` at time `t0`, while the entry's age stays below
the 5-minute TTL `getTags` returns the cached list; once the TTL has
elapsed without refresh, `getTags` evicts the entry (both maps drop the
key) and returns absent, `isCached` is false, and `resolveNameToId`
returns absent instead of a stale value. -/
theorem C6_tag_cache_ttl (s : TagResolver) (propertyId tagName : String)
    (tags : List TagInfo) (t0 age : Nat)
    (h0 : 0 < t0)
    (hn1 : (s.tagCache.map Prod.fst).Nodup)
    (hn2 : (s.cacheTimestamps.map Prod.fst).Nodup) :
    (age < CACHE_TTL →
      (getTagsForProperty (t0 + age) propertyId (setTagsForProperty t0 propertyId tags s)).1
        = some tags) ∧
    (CACHE_TTL < age →
      (getTagsForProperty (t0 + age) propertyId (setTagsForProperty t0 propertyId tags s)).1 = none ∧
      assocGet (getTagsForProperty (t0 + age) propertyId (setTagsForProperty t0 propertyId tags s)).2.tagCache propertyId = none ∧
      assocGet (getTagsForProperty (t0 + age) propertyId (setTagsForProperty t0 propertyId tags s)).2.cacheTimestamps propertyId = none ∧
      areTagsCached (t0 + age) propertyId (setTagsForProperty t0 propertyId tags s) = false ∧
      resolveTagNameToId (t0 + age) propertyId tagName (setTagsForProperty t0 propertyId tags s) = none) := by
  have hts : assocGet (setTagsForProperty t0 propertyId tags s).cacheTimestamps propertyId = some t0 :=
    assocGet_assocSet_self _ _ _
  have htc : assocGet (setTagsForProperty t0 propertyId tags s).tagCache propertyId = some tags :=
    assocGet_assocSet_self _ _ _
  constructor
  · intro hfresh
    have hstale : (t0 = 0 || t0 + age - t0 > CACHE_TTL) = false := by
      simp only [Bool.or_eq_false_iff, decide_eq_false_iff_not]
      omega
    simp only [getTagsForProperty, hts, hstale, Bool.false_eq_true, if_false, htc]
  · intro hexp
    have hstale : (t0 = 0 || t0 + age - t0 > CACHE_TTL) = true := by
      simp only [Bool.or_eq_true, decide_eq_true_eq]
      omega
    have hres : (getTagsForProperty (t0 + age) propertyId (setTagsForProperty t0 propertyId tags s)).1 = none := by
      simp only [getTagsForProperty, hts, hstale, if_true]
    refine ⟨hres, ?_, ?_, ?_, ?_⟩
    · simp only [getTagsForProperty, hts, hstale, if_true]
      exact assocGet_assocErase_self _ _ (nodup_keys_assocSet _ _ _ hn1)
    · simp only [getTagsForProperty, hts, hstale, if_true]
      exact assocGet_assocErase_self _ _ (nodup_keys_assocSet _ _ _ hn2)
    · simp only [areTagsCached, hts, decide_eq_false_iff_not]
      omega
    · simp only [resolveTagNameToId, hres]

/-- C6 witness: the theorem applied to a concrete resolver — a fresh read
5 ms after caching returns the tag list, and a read one millisecond past
the TTL returns absent with `isCached` false. -/
theorem C6_tag_cache_ttl_witness :
    (0 < 10 ∧ 5 < CACHE_TTL ∧ CACHE_TTL < 300001) ∧
    (getTagsForProperty (10 + 5) "p" (setTagsForProperty 10 "p" [⟨"t1", "Red", none⟩] {})).1
      = some [⟨"t1", "Red", none⟩] ∧
    (getTagsForProperty (10 + 300001) "p" (setTagsForProperty 10 "p" [⟨"t1", "Red", none⟩] {})).1
      = none ∧
    areTagsCached (10 + 300001) "p" (setTagsForProperty 10 "p" [⟨"t1", "Red", none⟩] {}) = false ∧
    resolveTagNameToId (10 + 300001) "p" "Red" (setTagsForProperty 10 "p" [⟨"t1", "Red", none⟩] {})
      = none :=
  ⟨⟨by decide, by decide, by decide⟩,
   (C6_tag_cache_ttl {} "p" "Red" [⟨"t1", "Red", none⟩] 10 5
      (by decide) (by decide) (by decide)).1 (by decide),
   ((C6_tag_cache_ttl {} "p" "Red" [⟨"t1", "Red", none⟩] 10 300001
      (by decide) (by decide) (by decide)).2 (by decide)).1,
   ((C6_tag_cache_ttl {} "p" "Red" [⟨"t1", "Red", none⟩] 10 300001
      (by decide) (by decide) (by decide)).2 (by decide)).2.2.2.1,
   ((C6_tag_cache_ttl {} "p" "Red" [⟨"t1", "Red", none⟩] 10 300001
      (by decide) (by decide) (by decide)).2 (by decide)).2.2.2.2⟩

/-! Claim C5 — batch failure isolation. -/

theorem foldl_ok_counts (items : List (String × Bool)) : ∀ (st : SyncStats),
    ((items.map fun p => ObjectOutcome.mk p.1 (.ok p.2)).foldl processOneObject st).failed = st.failed ∧
    ((items.map fun p => ObjectOutcome.mk p.1 (.ok p.2)).foldl processOneObject st).created +
      ((items.map fun p => ObjectOutcome.mk p.1 (.ok p.2)).foldl processOneObject st).updated
      = st.created + st.updated + items.length := by
  induction items with
  | nil => intro st; simp
  | cons p rest ih =>
    intro st
    simp only [List.map_cons, List.foldl_cons, List.length_cons]
    rcases ih (processOneObject st ⟨p.1, .ok p.2⟩) with ⟨ha, hb⟩
    refine ⟨?_, ?_⟩
    · rw [ha]; cases hp : p.2 <;> simp [processOneObject]
    · rw [hb]; cases hp : p.2 <;> simp [processOneObject] <;> omega

theorem initialize_counts (objectTypes : List String) :
    (initializeSyncStatistics objectTypes).created = 0 ∧
    (initializeSyncStatistics objectTypes).updated = 0 ∧
    (initializeSyncStatistics objectTypes).failed = 0 := by
  simp [initializeSyncStatistics]

theorem syncAllNotesLoop_ok (n : Nat) : ∀ (rest : List (Except String Unit)) (s f : Nat),
    syncAllNotesLoop (List.replicate n (.ok ()) ++ rest) s f = syncAllNotesLoop rest (s + n) f := by
  induction n with
  | zero => intro rest s f; simp
  | succ m ih =>
    intro rest s f
    simp only [List.replicate_succ, List.cons_append, List.append_eq, syncAllNotesLoop]
    rw [ih rest (s + 1) f]
    ring_nf

theorem syncAllNotesLoop_ok_only (n : Nat) (s f : Nat) :
    syncAllNotesLoop (List.replicate n (.ok ())) s f = (s + n, f) := by
  have := syncAllNotesLoop_ok n [] s f
  simpa [syncAllNotesLoop] using this

/-- C5: in a bulk import where exactly one streamed object throws, and in
a bulk sync where exactly one file's sync throws, the batch still
completes: the one item is counted failed and the other N−1 count as
successes (created/updated, resp. synced) — the failure never aborts the
batch. -/
theorem C5_batch_failure_isolation :
    (∀ (objectTypes : List String) (pre post : List (String × Bool)) (badType err : String),
      (runBulkImport objectTypes
        (pre.map (fun p => ⟨p.1, .ok p.2⟩) ++ ⟨badType, .error err⟩ ::
          post.map fun p => ⟨p.1, .ok p.2⟩)).failed = 1 ∧
      (runBulkImport objectTypes
        (pre.map (fun p => ⟨p.1, .ok p.2⟩) ++ ⟨badType, .error err⟩ ::
          post.map fun p => ⟨p.1, .ok p.2⟩)).created +
        (runBulkImport objectTypes
          (pre.map (fun p => ⟨p.1, .ok p.2⟩) ++ ⟨badType, .error err⟩ ::
            post.map fun p => ⟨p.1, .ok p.2⟩)).updated = pre.length + post.length) ∧
    (∀ (totalFiles pre post : Nat) (err : String),
      syncAllNotes totalFiles
          (List.replicate pre (.ok ()) ++ .error err :: List.replicate post (.ok ()))
        = ⟨0, pre + post, 1, totalFiles - (pre + 1 + post)⟩) := by
  constructor
  · intro objectTypes pre post badType err
    unfold runBulkImport
    rw [List.foldl_append, List.foldl_cons]
    set st0 := initializeSyncStatistics objectTypes with hst0
    rcases foldl_ok_counts pre st0 with ⟨hf1, hc1⟩
    set st1 := (pre.map fun p => ObjectOutcome.mk p.1 (.ok p.2)).foldl processOneObject st0 with hst1
    set st2 := processOneObject st1 ⟨badType, .error err⟩ with hst2
    rcases foldl_ok_counts post st2 with ⟨hf2, hc2⟩
    have hi := initialize_counts objectTypes
    rw [← hst0] at hi
    obtain ⟨hi1, hi2, hi3⟩ := hi
    have h2f : st2.failed = st1.failed + 1 := by simp [hst2, processOneObject]
    have h2c : st2.created = st1.created := by simp [hst2, processOneObject]
    have h2u : st2.updated = st1.updated := by simp [hst2, processOneObject]
    constructor
    · rw [hf2, h2f, hf1]; omega
    · rw [hc2, h2c, h2u]; omega
  · intro totalFiles pre post err
    have hlen : (List.replicate pre (Except.ok () : Except String Unit) ++
        Except.error err :: List.replicate post (Except.ok ())).length = pre + 1 + post := by
      simp; omega
    unfold syncAllNotes
    rw [hlen]
    have hne : ¬ (pre + 1 + post = 0) := by omega
    rw [if_neg hne]
    rw [syncAllNotesLoop_ok pre (Except.error err :: List.replicate post (Except.ok ())) 0 0]
    simp only [syncAllNotesLoop]
    rw [syncAllNotesLoop_ok_only post]
    simp only [SyncResult.mk.injEq]
    and_intros <;> first | trivial | omega

/-! Claim C8 — collision-safe filename generation. -/

theorem counterSearchFuel_eq_none (vault : List VaultFile) (folder safeName : String) :
    ∀ (fuel counter : Nat),
    (∀ c, counter ≤ c → c < counter + fuel →
      (getAbstractFileByPath vault (targetPathFor folder (safeName ++ " " ++ toString c))).isSome = true) →
    counterSearchFuel vault folder safeName fuel counter = none := by
  intro fuel
  induction fuel with
  | zero => intro counter _; rfl
  | succ f ih =>
    intro counter h
    have hc := h counter (Nat.le_refl _) (by omega)
    rw [counterSearchFuel]
    have : (getAbstractFileByPath vault (targetPathFor folder (safeName ++ " " ++ toString counter))).isNone = false := by
      cases ho : getAbstractFileByPath vault (targetPathFor folder (safeName ++ " " ++ toString counter)) with
      | none => rw [ho] at hc; simp at hc
      | some _ => simp
    simp only [this, Bool.false_eq_true, if_false]
    exact ih (counter + 1) (fun c h1 h2 => h c (by omega) (by omega))

/-- C8: with an existing `Foo.md` carrying neither a truthy `id` nor a
truthy `space_id` header, generating a unique filename for a new object
named `Foo` yields `Foo 1` with the conflict and manual-note flags set;
with `Foo 1.md` also taken it yields the next free suffix `Foo 2`; and
when every numeric suffix up to the 1000-attempt bound is taken, it falls
back to `Foo <timestamp>`. The function only reads the vault — it returns
a name and flags, and modifies or renames nothing. -/
theorem C8_filename_collision :
    (∀ (fm : List (String × JValue)) (now : Nat),
      jsTruthyAt fm "id" = false → jsTruthyAt fm "space_id" = false →
      generateUniqueFilename [⟨"Foo.md", fm⟩] now "Foo" "" = ("Foo 1", true, true)) ∧
    (∀ (fm fm2 : List (String × JValue)) (now : Nat),
      jsTruthyAt fm "id" = false → jsTruthyAt fm "space_id" = false →
      generateUniqueFilename [⟨"Foo.md", fm⟩, ⟨"Foo 1.md", fm2⟩] now "Foo" ""
        = ("Foo 2", true, true)) ∧
    (∀ (vault : List VaultFile) (now : Nat) (f : VaultFile),
      getAbstractFileByPath vault "Foo.md" = some f →
      jsTruthyAt f.frontmatter "id" = false →
      jsTruthyAt f.frontmatter "space_id" = false →
      (∀ c : Nat, 1 ≤ c → c ≤ 1000 →
        (getAbstractFileByPath vault (targetPathFor "" ("Foo" ++ " " ++ toString c))).isSome = true) →
      generateUniqueFilename vault now "Foo" "" = ("Foo" ++ " " ++ toString now, true, true)) := by
  refine ⟨?_, ?_, ?_⟩
  · intro fm now h1 h2
    have hr : generateUniqueFilename [⟨"Foo.md", fm⟩] now "Foo" ""
        = ("Foo 1", true, !jsTruthyAt fm "id" && !jsTruthyAt fm "space_id") := rfl
    rw [hr, h1, h2]
    rfl
  · intro fm fm2 now h1 h2
    have hr : generateUniqueFilename [⟨"Foo.md", fm⟩, ⟨"Foo 1.md", fm2⟩] now "Foo" ""
        = ("Foo 2", true, !jsTruthyAt fm "id" && !jsTruthyAt fm "space_id") := rfl
    rw [hr, h1, h2]
    rfl
  · intro vault now f hfind h1 h2 hocc
    have hcs : counterSearch vault "" "Foo" = none :=
      counterSearchFuel_eq_none vault "" "Foo" 1000 1
        (fun c hc1 hc2 => hocc c hc1 (by omega))
    simp only [generateUniqueFilename]
    rw [show sanitizeFilename (if ("Foo" : String) = "" then "Untitled" else "Foo") = "Foo" from rfl]
    rw [show targetPathFor "" "Foo" = "Foo.md" from rfl]
    rw [hfind]
    simp only [hcs, h1, h2]
    rfl

/-- C8 witness: the theorem's first two parts applied to concrete vaults
with empty and non-truthy frontmatter. -/
theorem C8_filename_collision_witness :
    (jsTruthyAt ([("name", JValue.str "Foo")]) "id" = false ∧
     jsTruthyAt ([("name", JValue.str "Foo")]) "space_id" = false) ∧
    generateUniqueFilename [⟨"Foo.md", [("name", JValue.str "Foo")]⟩] 1700000000000 "Foo" ""
      = ("Foo 1", true, true) ∧
    generateUniqueFilename [⟨"Foo.md", [("name", JValue.str "Foo")]⟩, ⟨"Foo 1.md", []⟩]
        1700000000000 "Foo" "" = ("Foo 2", true, true) :=
  ⟨⟨by decide, by decide⟩,
   C8_filename_collision.1 [("name", JValue.str "Foo")] 1700000000000 (by decide) (by decide),
   C8_filename_collision.2.1 [("name", JValue.str "Foo")] [] 1700000000000 (by decide) (by decide)⟩

/-! Claim C9 — fallback header on serialization errors. -/

/-- C9: whenever a runtime error is raised inside header generation (the
`serializationError` flag models an exception thrown while serializing the
object's properties), the top-level catch answers with the minimal
fallback header holding exactly the four core identity fields — so a
malformed property never prevents the document from being written. -/
theorem C9_fallback_header (object : AnyTypeObject) (skipSystemProperties : Bool)
    (preservedProperties : Option (List (String × JValue))) :
    generateYamlFrontmatter true object skipSystemProperties preservedProperties =
      "---\nid: " ++ jsOrDefault (sanitizeForYaml (.str object.id)) "unknown" ++
      "\nspace_id: " ++ jsOrDefault (sanitizeForYaml (.str object.space_id)) "unknown" ++
      "\n'type_key': " ++ jsOrDefault (sanitizeForYaml (.str object.type_key)) "page" ++
      "\nname: " ++ jsOrDefault (sanitizeForYaml (.str object.name)) "Untitled" ++
      "\n---\n\n" := by
  unfold generateYamlFrontmatter
  split
  · rfl
  · rfl

/-! Claim C7 — fail-safe input handling of wikilink translation. -/

/-- C7 counterexample: the claim says every non-string input yields an
empty string, but the guard returns `markdown || ''`, so a truthy
non-string input — the number 42 — comes back unchanged, not as `""`. -/
theorem C7_counterexample :
    convertWikilinksToAnyTypeUrls (Except.ok []) (JValue.num 42) "space1" = JValue.num 42 ∧
    JValue.num 42 ≠ JValue.str "" :=
  ⟨rfl, fun h => nomatch h⟩

/-- C7 (amended): a falsy non-string input (null/undefined, 0, false)
returns the empty string, a truthy non-string input is returned unchanged,
and for every string input an internal error during translation returns
the original text unmodified — the operation never destroys string
content. -/
theorem C7_failsafe_amended :
    (∀ (refreshedCache : Except String NoteCache) (v : JValue) (currentSpaceId : String),
      v.isStr = false → jsTruthy v = false →
      convertWikilinksToAnyTypeUrls refreshedCache v currentSpaceId = .str "") ∧
    (∀ (refreshedCache : Except String NoteCache) (v : JValue) (currentSpaceId : String),
      v.isStr = false → jsTruthy v = true →
      convertWikilinksToAnyTypeUrls refreshedCache v currentSpaceId = v) ∧
    (∀ (err : String) (s : String) (currentSpaceId : String),
      convertWikilinksToAnyTypeUrls (.error err) (.str s) currentSpaceId = .str s) := by
  refine ⟨?_, ?_, ?_⟩
  · intro r v sid h1 h2
    simp [convertWikilinksToAnyTypeUrls, h1, h2]
  · intro r v sid h1 h2
    simp [convertWikilinksToAnyTypeUrls, h1, h2]
  · intro err s sid
    by_cases hs : s = ""
    · subst hs
      simp [convertWikilinksToAnyTypeUrls, jsTruthy]
    · simp [convertWikilinksToAnyTypeUrls, jsTruthy, JValue.isStr, hs]

/-- C7 witness: the amended theorem applied at null (falsy non-string),
a boolean true (truthy non-string), and a failing refresh on a concrete
text. -/
theorem C7_failsafe_amended_witness :
    (JValue.nullV.isStr = false ∧ jsTruthy JValue.nullV = false ∧
      convertWikilinksToAnyTypeUrls (Except.ok []) JValue.nullV "sp" = .str "") ∧
    ((JValue.bool true).isStr = false ∧ jsTruthy (JValue.bool true) = true ∧
      convertWikilinksToAnyTypeUrls (Except.ok []) (JValue.bool true) "sp" = JValue.bool true) ∧
    convertWikilinksToAnyTypeUrls (.error "vault unavailable") (.str "see [[Foo]]") "sp"
      = .str "see [[Foo]]" :=
  ⟨⟨rfl, rfl, C7_failsafe_amended.1 (Except.ok []) JValue.nullV "sp" rfl rfl⟩,
   ⟨rfl, rfl, C7_failsafe_amended.2.1 (Except.ok []) (JValue.bool true) "sp" rfl rfl⟩,
   C7_failsafe_amended.2.2 "vault unavailable" "see [[Foo]]" "sp"⟩

/-! Claims C4 and C10 — the encode pipeline's key filtering. -/

theorem formatForAPI_key (env : JsDateEnv) (now : Nat) (resolver : TagResolver)
    (key : String) (value : JValue) (format : String) (propertyId : Option String)
    (pv : PropertyValue)
    (h : formatForAPI env now resolver key value format propertyId = some pv) :
    pv.key = key := by
  unfold formatForAPI at h
  rw [Option.map_eq_some'] at h
  obtain ⟨p, _, rfl⟩ := h
  rfl

theorem buildValidated_eq_extract (env : JsDateEnv) (now : Nat) (resolver : TagResolver)
    (availableProperties : List PropertyDef) (skipSystemProperties : Bool) :
    ∀ frontmatter,
    buildValidatedProperties env now resolver frontmatter availableProperties skipSystemProperties
      = extractFromFrontmatter env now resolver frontmatter availableProperties skipSystemProperties := by
  intro fm
  induction fm with
  | nil => rfl
  | cons e rest ih =>
    rw [buildValidatedProperties, extractFromFrontmatter, ih]

theorem extract_output_prop (env : JsDateEnv) (now : Nat) (resolver : TagResolver)
    (props : List PropertyDef) (skip : Bool) :
    ∀ fm, ∀ pv ∈ extractFromFrontmatter env now resolver fm props skip,
      READ_ONLY_PROPERTIES.contains pv.key = false ∧
      (match propLookup props pv.key with
       | some d => ALLOWED_PROPERTY_FORMATS.contains d.format = true
       | none => True) := by
  intro fm
  induction fm with
  | nil => intro pv hpv; simp [extractFromFrontmatter] at hpv
  | cons e rest ih =>
    intro pv hpv
    rw [extractFromFrontmatter] at hpv
    split at hpv
    · exact ih pv hpv
    · split at hpv
      · exact ih pv hpv
      · rename_i hsys hro
        split at hpv
        · rename_i hlook
          split at hpv
          · split at hpv
            · rename_i hfmt hpv'
              rcases List.mem_cons.mp hpv with rfl | hmem
              · have hk := formatForAPI_key _ _ _ _ _ _ _ _ hpv'
                rw [hk]
                refine ⟨by simpa using hro, ?_⟩
                rw [hlook]
                exact trivial
              · exact ih pv hmem
            · exact ih pv hpv
          · exact ih pv hpv
        · rename_i d hlook
          split at hpv
          · exact ih pv hpv
          · rename_i hallowed
            split at hpv
            · rename_i hpv'
              rcases List.mem_cons.mp hpv with rfl | hmem
              · have hk := formatForAPI_key _ _ _ _ _ _ _ _ hpv'
                rw [hk]
                refine ⟨by simpa using hro, ?_⟩
                rw [hlook]
                show ALLOWED_PROPERTY_FORMATS.contains d.format = true
                simpa using hallowed
              · exact ih pv hmem
            · exact ih pv hpv

/-- C4: for every frontmatter map and property schema, neither
`extractFromFrontmatter` nor `buildValidatedProperties` ever emits a
Property Value whose key belongs to the Read-Only Property set — the
read-only filter runs before any definition lookup or inference. -/
theorem C4_no_readonly_keys_encoded (env : JsDateEnv) (now : Nat) (resolver : TagResolver)
    (frontmatter : List (String × JValue)) (availableProperties : List PropertyDef)
    (skipSystemProperties : Bool) :
    (extractFromFrontmatter env now resolver frontmatter availableProperties
        skipSystemProperties).all
      (fun pv => !(READ_ONLY_PROPERTIES.contains pv.key)) = true ∧
    (buildValidatedProperties env now resolver frontmatter availableProperties
        skipSystemProperties).all
      (fun pv => !(READ_ONLY_PROPERTIES.contains pv.key)) = true := by
  have hmain : (extractFromFrontmatter env now resolver frontmatter availableProperties
      skipSystemProperties).all (fun pv => !(READ_ONLY_PROPERTIES.contains pv.key)) = true := by
    rw [List.all_eq_true]
    intro pv hpv
    have := (extract_output_prop env now resolver availableProperties skipSystemProperties
      frontmatter pv hpv).1
    simp only [Bool.not_eq_true']
    exact this
  exact ⟨hmain, by rw [buildValidated_eq_extract]; exact hmain⟩

/-- C10: the Allowed Format set is exactly `{text, number}`; every encoded
Property Value whose key matches a known Property Definition was allowed
by that filter (so richer declared formats are skipped), while the same
key and value with no schema entry can still be encoded under a richer
inferred format — `{due: "2024-01-01"}` encodes as a `date` value when
`due` is absent from the schema, and is skipped when the schema declares
`due` with format `date`. -/
theorem C10_allowed_formats_filter :
    (ALLOWED_PROPERTY_FORMATS = ["text", "number"]) ∧
    (∀ (env : JsDateEnv) (now : Nat) (resolver : TagResolver)
      (frontmatter : List (String × JValue)) (availableProperties : List PropertyDef)
      (skipSystemProperties : Bool),
      (extractFromFrontmatter env now resolver frontmatter availableProperties
          skipSystemProperties).all
        (fun pv => match propLookup availableProperties pv.key with
          | some d => ALLOWED_PROPERTY_FORMATS.contains d.format
          | none => true) = true ∧
      (buildValidatedProperties env now resolver frontmatter availableProperties
          skipSystemProperties).all
        (fun pv => match propLookup availableProperties pv.key with
          | some d => ALLOWED_PROPERTY_FORMATS.contains d.format
          | none => true) = true) ∧
    extractFromFrontmatter strictDateEnv 0 {} [("due", .str "2024-01-01")] [] true
      = [⟨"due", .date "2024-01-01T00:00:00.000Z"⟩] ∧
    extractFromFrontmatter strictDateEnv 0 {} [("due", .str "2024-01-01")]
        [⟨"p1", "due", "date"⟩] true = [] := by
  refine ⟨rfl, ?_, by decide, by decide⟩
  intro env now resolver fm props skip
  have hmain : (extractFromFrontmatter env now resolver fm props skip).all
      (fun pv => match propLookup props pv.key with
        | some d => ALLOWED_PROPERTY_FORMATS.contains d.format
        | none => true) = true := by
    rw [List.all_eq_true]
    intro pv hpv
    have := (extract_output_prop env now resolver props skip fm pv hpv).2
    cases hl : propLookup props pv.key with
    | none => simp [hl]
    | some d =>
      rw [hl] at this
      have hc : ALLOWED_PROPERTY_FORMATS.contains d.format = true := this
      simp only [hl, hc]
  exact ⟨hmain, by rw [buildValidated_eq_extract]; exact hmain⟩

/-! Claim C3 — unresolved wikilinks pass through untouched. -/

theorem tryMatch_rest_length {cs t d rest} (h : tryMatch cs = some (t, d, rest)) :
    rest.length < cs.length := by
  unfold tryMatch at h
  split at h
  case h_2 => exact absurd h (by simp)
  rename_i cs1
  simp only at h
  split at h
  · exact absurd h (by simp)
  split at h
  case isFalse.h_2 rest' cs2eq =>
    cases h
    have h1 : (List.dropWhile (fun c => decide (c ≠ ']' ∧ c ≠ '|')) cs1).length ≤ cs1.length :=
      (List.dropWhile_sublist _).length_le
    rw [cs2eq] at h1
    simp only [List.length_cons] at h1 ⊢
    omega
  case isFalse.h_3 => exact absurd h (by simp)
  case isFalse.h_1 cs3 cs2eq =>
    split at h
    · exact absurd h (by simp)
    split at h
    case isFalse.h_2 => exact absurd h (by simp)
    case isFalse.h_1 rest' cs4eq =>
      cases h
      have h1 : (List.dropWhile (fun c => decide (c ≠ ']' ∧ c ≠ '|')) cs1).length ≤ cs1.length :=
        (List.dropWhile_sublist _).length_le
      have h2 : (List.dropWhile (fun c => decide (c ≠ ']')) cs3).length ≤ cs3.length :=
        (List.dropWhile_sublist _).length_le
      rw [cs2eq] at h1
      rw [cs4eq] at h2
      simp only [List.length_cons] at h1 h2 ⊢
      omega

theorem tryMatch_reconstruct {cs t d rest} (h : tryMatch cs = some (t, d, rest)) :
    cs = renderLink t d ++ rest := by
  unfold tryMatch at h
  split at h
  case h_2 => exact absurd h (by simp)
  rename_i cs1
  simp only at h
  split at h
  · exact absurd h (by simp)
  split at h
  case isFalse.h_2 rest' cs2eq =>
    cases h
    have hsplit := List.takeWhile_append_dropWhile (fun c => decide (c ≠ ']' ∧ c ≠ '|')) cs1
    rw [cs2eq] at hsplit
    simp only [renderLink, List.cons_append, List.nil_append, List.append_assoc, List.append_nil]
    rw [hsplit]
  case isFalse.h_3 => exact absurd h (by simp)
  case isFalse.h_1 cs3 cs2eq =>
    split at h
    · exact absurd h (by simp)
    split at h
    case isFalse.h_2 => exact absurd h (by simp)
    case isFalse.h_1 rest' cs4eq =>
      cases h
      have hsplit1 := List.takeWhile_append_dropWhile (fun c => decide (c ≠ ']' ∧ c ≠ '|')) cs1
      have hsplit2 := List.takeWhile_append_dropWhile (fun c => decide (c ≠ ']')) cs3
      rw [cs2eq] at hsplit1
      rw [cs4eq] at hsplit2
      simp only [renderLink, List.cons_append, List.nil_append, List.append_assoc, List.append_nil]
      rw [hsplit2, hsplit1]

theorem replaceWikilink_unresolved (cache : NoteCache) (sid : String) (t : List Char)
    (d : Option (List Char)) (h : unresolvedFor cache sid t = true) :
    replaceWikilink cache sid t d = renderLink t d := by
  simp only [replaceWikilink]
  unfold unresolvedFor at h
  split at h
  · rename_i hfind
    rw [hfind]
  · rename_i info hfind
    rw [hfind]
    simp only [decide_eq_true_eq] at h
    exact if_neg h

theorem convertCharsFuel_unresolved (cache : NoteCache) (sid : String) :
    ∀ (fuel : Nat) (l : List Char), l.length ≤ fuel →
    (linkTargetsFuel fuel l).all (unresolvedFor cache sid) = true →
    convertCharsFuel cache sid fuel l = l := by
  intro fuel
  induction fuel with
  | zero => intro l _ _; rfl
  | succ f ih =>
    intro l hlen hall
    match l with
    | [] => rfl
    | c :: cs =>
      rw [convertCharsFuel]
      rw [linkTargetsFuel] at hall
      cases hm : tryMatch (c :: cs) with
      | none =>
        rw [hm] at hall
        simp only [hm]
        have : cs.length ≤ f := by
          simp only [List.length_cons] at hlen
          omega
        rw [ih cs this hall]
      | some r =>
        obtain ⟨t, d, rest⟩ := r
        rw [hm] at hall
        simp only [hm, List.all_cons, Bool.and_eq_true] at hall ⊢
        obtain ⟨ht, hrest⟩ := hall
        have hr : rest.length ≤ f := by
          have := tryMatch_rest_length hm
          simp only [List.length_cons] at this hlen
          omega
        rw [replaceWikilink_unresolved cache sid t d ht, ih rest hr hrest]
        exact (tryMatch_reconstruct hm).symm

/-- C3: when every wikilink occurrence in a text has a target that does
not resolve to an object of the current space (not found, or found in a
different space), translation to remote form returns the input text
unchanged — user content on unresolved links is never dropped. -/
theorem C3_unresolved_links_noop (cache : NoteCache) (currentSpaceId : String) (s : String)
    (h : (linkTargets s.toList).all (unresolvedFor cache currentSpaceId) = true) :
    convertWikilinksToAnyTypeUrls (.ok cache) (.str s) currentSpaceId = .str s := by
  by_cases hs : s = ""
  · subst hs; rfl
  · have hconv : convertWikilinksToAnyTypeUrls (.ok cache) (.str s) currentSpaceId
        = .str (String.mk (convertChars cache currentSpaceId s.toList)) := by
      simp [convertWikilinksToAnyTypeUrls, jsTruthy, JValue.isStr, hs]
    rw [hconv]
    unfold linkTargets at h
    unfold convertChars
    rw [convertCharsFuel_unresolved cache currentSpaceId s.toList.length s.toList (le_refl _) h]
    rfl

/-- C3 witness: a cache holding only an unrelated title leaves a text with
a bare link and a piped link byte-for-byte unchanged. -/
theorem C3_unresolved_links_noop_witness :
    ((linkTargets ("A [[Foo]] B [[Bar|baz]] C" : String).toList).all
      (unresolvedFor [("Other", ⟨"o1", "sp2"⟩)] "sp2") = true) ∧
    convertWikilinksToAnyTypeUrls (.ok [("Other", ⟨"o1", "sp2"⟩)])
        (.str "A [[Foo]] B [[Bar|baz]] C") "sp2"
      = .str "A [[Foo]] B [[Bar|baz]] C" :=
  ⟨by decide,
   C3_unresolved_links_noop [("Other", ⟨"o1", "sp2"⟩)] "sp2" "A [[Foo]] B [[Bar|baz]] C" (by decide)⟩



theorem findClose_cons_ne {c : Char} {cs : List Char}
    (hne : ∀ rest, c = '-' → cs = '-' :: '-' :: '\n' :: rest → False) :
    findClose (c :: cs) = findClose cs := by
  rw [findClose.eq_def]
  split
  · rename_i rest heq
    rw [List.cons.injEq] at heq
    exact (hne rest heq.1 heq.2).elim
  · rename_i c' cs' heq
    rw [List.cons.injEq] at heq
    rw [heq.2]
  · rename_i heq
    exact absurd heq (by simp)

theorem findClose_eq_none_of_short : ∀ (l : List Char), l.length < 4 → findClose l = none := by
  intro l
  induction l with
  | nil => intro _; rfl
  | cons c cs ih =>
    intro hlen
    rw [findClose.eq_def]
    split
    · rename_i rest heq
      have := congrArg List.length heq
      simp only [List.length_cons] at this hlen
      omega
    · rename_i c' cs' heq
      rw [List.cons.injEq] at heq
      rw [← heq.2]
      exact ih (by simp only [List.length_cons] at hlen; omega)
    · rename_i heq
      exact absurd heq (by simp)

theorem findClose_append {l r : List Char} (h : findClose l = some r) (ext : List Char) :
    findClose (l ++ ext) = some (r ++ ext) := by
  induction l using findClose.induct with
  | case1 rest => simp [findClose] at h ⊢; rw [← h]
  | case2 c cs hne ih =>
    have hcc : findClose (c :: cs) = findClose cs := findClose_cons_ne (fun rest h1 h2 => hne rest h1 h2)
    rw [hcc] at h
    rw [List.cons_append]
    have hne2 : ∀ rest, c = '-' → cs ++ ext = '-' :: '-' :: '\n' :: rest → False := by
      intro rest h1 h2
      match cs, h2 with
      | [], h2 =>
        rw [findClose_eq_none_of_short [] (by simp)] at h
        exact Option.noConfusion h
      | [a], h2 =>
        rw [findClose_eq_none_of_short [a] (by simp)] at h
        exact Option.noConfusion h
      | [a, b], h2 =>
        rw [findClose_eq_none_of_short [a, b] (by simp)] at h
        exact Option.noConfusion h
      | a :: b :: d :: cs', h2 =>
        simp only [List.cons_append, List.cons.injEq] at h2
        exact hne cs' h1 (by rw [h2.1, h2.2.1, h2.2.2.1])
    rw [findClose_cons_ne hne2]
    exact ih h
  | case3 => simp [findClose] at h


theorem extractExistingBody_of_clean {header : String}
    (hclean : headerClosesCleanly header = true) (body : String) :
    extractExistingBody (header ++ body) = body := by
  unfold headerClosesCleanly at hclean
  split at hclean
  case h_2 => exact absurd hclean (by simp)
  rename_i hrest hform
  split at hclean
  case h_2 => exact absurd hclean (by simp)
  rename_i hfc
  unfold extractExistingBody
  have hdata : (header ++ body).toList = '-' :: '-' :: '-' :: (hrest ++ body.toList) := by
    show (header ++ body).data = _
    rw [String.data_append]
    show header.toList ++ body.toList = _
    rw [hform]
    simp [List.cons_append]
  rw [hdata]
  simp only []
  rw [findClose_append hfc body.toList]
  simp only [List.cons_append, List.nil_append]
  rw [show dropOptionalNewline ('\n' :: body.toList) = body.toList from rfl]
  show String.mk body.toList = body
  rfl


theorem assocSet_append_left {α : Type} (pre rest : List (String × α)) (k : String) (v : α)
    (h : ∀ p ∈ pre, p.1 ≠ k) :
    assocSet (pre ++ rest) k v = pre ++ assocSet rest k v := by
  induction pre with
  | nil => simp
  | cons e tl ih =>
    have he : e.1 ≠ k := h e (List.mem_cons_self e tl)
    simp only [List.cons_append, assocSet, if_neg he, List.append_eq]
    rw [ih (fun p hp => h p (List.mem_cons_of_mem e hp))]

theorem addObjectProperties_prefix (skip : Bool) (pre : List (String × JValue)) :
    ∀ (entries extra : List (String × JValue)),
    (∀ en ∈ entries, ∀ p ∈ pre, p.1 ≠ en.1) →
    ∃ extra', addObjectProperties skip (pre ++ extra) entries = pre ++ extra' := by
  intro entries
  induction entries with
  | nil => intro extra _; exact ⟨extra, rfl⟩
  | cons en rest ih =>
    intro extra hk
    obtain ⟨key, value⟩ := en
    have hen : ∀ p ∈ pre, p.1 ≠ key := fun p hp => hk ⟨key, value⟩ (List.mem_cons_self _ rest) p hp
    have hrest : ∀ e ∈ rest, ∀ p ∈ pre, p.1 ≠ e.1 :=
      fun e he => hk e (List.mem_cons_of_mem _ he)
    rw [addObjectProperties]
    by_cases h1 : skip && isSystemProperty key
    · rw [if_pos h1]
      exact ih extra hrest
    · rw [if_neg h1]
      by_cases h2 : isValidYamlKey key && !value.isNullV
      · rw [if_pos h2]
        cases hs : sanitizePropertyValue value with
        | nullV =>
          show ∃ extra', addObjectProperties skip (pre ++ extra) rest = pre ++ extra'
          exact ih extra hrest
        | str sv =>
          show ∃ extra', addObjectProperties skip (assocSet (pre ++ extra) key (JValue.str sv)) rest
            = pre ++ extra'
          rw [assocSet_append_left pre extra key (.str sv) hen]
          exact ih _ hrest
        | num q =>
          show ∃ extra', addObjectProperties skip (assocSet (pre ++ extra) key (JValue.num q)) rest
            = pre ++ extra'
          rw [assocSet_append_left pre extra key (.num q) hen]
          exact ih _ hrest
        | bool b =>
          show ∃ extra', addObjectProperties skip (assocSet (pre ++ extra) key (JValue.bool b)) rest
            = pre ++ extra'
          rw [assocSet_append_left pre extra key (.bool b) hen]
          exact ih _ hrest
        | list xs =>
          show ∃ extra', addObjectProperties skip (assocSet (pre ++ extra) key (JValue.list xs)) rest
            = pre ++ extra'
          rw [assocSet_append_left pre extra key (.list xs) hen]
          exact ih _ hrest
        | obj fs =>
          show ∃ extra', addObjectProperties skip (assocSet (pre ++ extra) key (JValue.obj fs)) rest
            = pre ++ extra'
          rw [assocSet_append_left pre extra key (.obj fs) hen]
          exact ih _ hrest
      · rw [if_neg h2]
        exact ih extra hrest




theorem coreFrontmatter_keys (object : AnyTypeObject) :
    (coreFrontmatter object).map Prod.fst = ["id", "space_id", "type_key", "name"] := rfl

theorem addPreservedProperties_prefix (object : AnyTypeObject) :
    ∀ (entries extra : List (String × JValue)),
    ∃ extra', addPreservedProperties object (coreFrontmatter object ++ extra) entries
      = coreFrontmatter object ++ extra' := by
  intro entries
  induction entries with
  | nil => intro extra; exact ⟨extra, rfl⟩
  | cons en rest ih =>
    intro extra
    obtain ⟨key, value⟩ := en
    rw [addPreservedProperties]
    split
    · rename_i hc
      have hkey : ∀ p ∈ coreFrontmatter object, p.1 ≠ key := by
        intro p hp hpk
        rw [Bool.and_eq_true, Bool.and_eq_true] at hc
        have hnc := hc.1.2
        rw [Bool.not_eq_true'] at hnc
        have hmem : p.1 ∈ (coreFrontmatter object).map Prod.fst :=
          List.mem_map.mpr ⟨p, hp, rfl⟩
        rw [coreFrontmatter_keys] at hmem
        rw [hpk] at hmem
        have helem := List.elem_iff.mpr hmem
        rw [show ((["id", "space_id", "type_key", "name"] : List String).contains key)
          = (["id", "space_id", "type_key", "name"] : List String).elem key from rfl,
          helem] at hnc
        cases hnc
      cases hs : sanitizePropertyValue value with
      | nullV =>
        show ∃ extra', addPreservedProperties object (coreFrontmatter object ++ extra) rest
          = coreFrontmatter object ++ extra'
        exact ih extra
      | str sv =>
        show ∃ extra',
          addPreservedProperties object (assocSet (coreFrontmatter object ++ extra) key (JValue.str sv)) rest
            = coreFrontmatter object ++ extra'
        rw [assocSet_append_left _ extra key (.str sv) hkey]
        exact ih _
      | num q =>
        show ∃ extra',
          addPreservedProperties object (assocSet (coreFrontmatter object ++ extra) key (JValue.num q)) rest
            = coreFrontmatter object ++ extra'
        rw [assocSet_append_left _ extra key (.num q) hkey]
        exact ih _
      | bool b =>
        show ∃ extra',
          addPreservedProperties object (assocSet (coreFrontmatter object ++ extra) key (JValue.bool b)) rest
            = coreFrontmatter object ++ extra'
        rw [assocSet_append_left _ extra key (.bool b) hkey]
        exact ih _
      | list xs =>
        show ∃ extra',
          addPreservedProperties object (assocSet (coreFrontmatter object ++ extra) key (JValue.list xs)) rest
            = coreFrontmatter object ++ extra'
        rw [assocSet_append_left _ extra key (.list xs) hkey]
        exact ih _
      | obj fs =>
        show ∃ extra',
          addPreservedProperties object (assocSet (coreFrontmatter object ++ extra) key (JValue.obj fs)) rest
            = coreFrontmatter object ++ extra'
        rw [assocSet_append_left _ extra key (.obj fs) hkey]
        exact ih _
    · exact ih extra

theorem yamlLinesOf_append (a b : List (String × JValue)) :
    yamlLinesOf (a ++ b) = yamlLinesOf a ++ yamlLinesOf b := by
  induction a with
  | nil => simp [yamlLinesOf]
  | cons e rest ih =>
    show (if e.2.isNullV then "" else formatYamlLine e.1 e.2) ++ yamlLinesOf (rest ++ b)
      = ((if e.2.isNullV then "" else formatYamlLine e.1 e.2) ++ yamlLinesOf rest) ++ yamlLinesOf b
    rw [ih, String.append_assoc]

theorem formatYamlLine_str_plain (key s : String) (h : needsYamlQuoting s = false) :
    formatYamlLine key (.str s) = key ++ ": " ++ s ++ "\n" := by
  have hneg : ¬((JValue.str s).isStr = true ∧ needsYamlQuoting (jsToString (JValue.str s)) = true) := by
    intro hx
    have hb := hx.2
    rw [show jsToString (JValue.str s) = s from rfl, h] at hb
    cases hb
  show (if (JValue.str s).isStr = true ∧ needsYamlQuoting (jsToString (JValue.str s)) = true then
      key ++ ": \"" ++ escapeYamlValue (jsToString (JValue.str s)) ++ "\"\n"
    else key ++ ": " ++ jsToString (JValue.str s) ++ "\n") = key ++ ": " ++ s ++ "\n"
  rw [if_neg hneg]
  rfl


theorem generateYamlFrontmatter_structure (object : AnyTypeObject) (skip : Bool)
    (preserved : Option (List (String × JValue)))
    (h1 : ¬ object.id = "") (h2 : ¬ object.space_id = "") (h3 : ¬ object.type_key = "")
    (hprops : ∀ en ∈ object.properties,
      ¬ en.1 ∈ (["id", "space_id", "type_key", "name"] : List String)) :
    ∃ extra, generateYamlFrontmatter false object skip preserved
      = "---\n" ++ yamlLinesOf (coreFrontmatter object ++ extra) ++ "---\n\n" := by
  have hk : ∀ en ∈ object.properties, ∀ p ∈ coreFrontmatter object, p.1 ≠ en.1 := by
    intro en hen p hpmem heq
    have hm : p.1 ∈ (coreFrontmatter object).map Prod.fst := List.mem_map.mpr ⟨p, hpmem, rfl⟩
    rw [coreFrontmatter_keys, heq] at hm
    exact hprops en hen hm
  obtain ⟨extra1, hextra1⟩ : ∃ extra1,
      (if object.properties.length > 0 then
        addObjectProperties skip (coreFrontmatter object) object.properties
      else coreFrontmatter object) = coreFrontmatter object ++ extra1 := by
    by_cases hp : object.properties.length > 0
    · rw [if_pos hp]
      obtain ⟨e, he⟩ := addObjectProperties_prefix skip (coreFrontmatter object)
        object.properties [] hk
      rw [List.append_nil] at he
      exact ⟨e, he⟩
    · rw [if_neg hp]
      exact ⟨[], (List.append_nil _).symm⟩
  cases preserved with
  | none =>
    refine ⟨extra1, ?_⟩
    show (if object.id = "" ∨ object.space_id = "" ∨ object.type_key = "" then
        fallbackFrontmatter object
      else if (false : Bool) = true then fallbackFrontmatter object
      else "---\n" ++ yamlLinesOf (if object.properties.length > 0 then
          addObjectProperties skip (coreFrontmatter object) object.properties
        else coreFrontmatter object) ++ "---\n\n") = _
    rw [if_neg (by push_neg; exact ⟨h1, h2, h3⟩), if_neg (by simp), hextra1]
  | some p =>
    obtain ⟨extra2, hextra2⟩ := addPreservedProperties_prefix object p extra1
    refine ⟨extra2, ?_⟩
    show (if object.id = "" ∨ object.space_id = "" ∨ object.type_key = "" then
        fallbackFrontmatter object
      else if (false : Bool) = true then fallbackFrontmatter object
      else "---\n" ++ yamlLinesOf (addPreservedProperties object
        (if object.properties.length > 0 then
          addObjectProperties skip (coreFrontmatter object) object.properties
        else coreFrontmatter object) p) ++ "---\n\n") = _
    rw [if_neg (by push_neg; exact ⟨h1, h2, h3⟩), if_neg (by simp), hextra1, hextra2]

theorem yamlLinesOf_core (object : AnyTypeObject)
    (hq1 : needsYamlQuoting ((sanitizeForYaml (.str object.id)).getD "") = false)
    (hq2 : needsYamlQuoting ((sanitizeForYaml (.str object.space_id)).getD "") = false)
    (hq3 : needsYamlQuoting ((sanitizeForYaml (.str object.type_key)).getD "") = false)
    (hq4 : needsYamlQuoting (jsOrDefault (sanitizeForYaml (.str object.name)) "Untitled") = false) :
    yamlLinesOf (coreFrontmatter object)
      = "id: " ++ (sanitizeForYaml (.str object.id)).getD "" ++ "\n"
        ++ ("space_id: " ++ (sanitizeForYaml (.str object.space_id)).getD "" ++ "\n"
        ++ ("type_key: " ++ (sanitizeForYaml (.str object.type_key)).getD "" ++ "\n"
        ++ ("name: " ++ jsOrDefault (sanitizeForYaml (.str object.name)) "Untitled" ++ "\n"
        ++ ""))) := by
  show formatYamlLine "id" (.str ((sanitizeForYaml (.str object.id)).getD ""))
      ++ (formatYamlLine "space_id" (.str ((sanitizeForYaml (.str object.space_id)).getD ""))
      ++ (formatYamlLine "type_key" (.str ((sanitizeForYaml (.str object.type_key)).getD ""))
      ++ (formatYamlLine "name" (.str (jsOrDefault (sanitizeForYaml (.str object.name)) "Untitled"))
      ++ ""))) = _
  rw [formatYamlLine_str_plain _ _ hq1, formatYamlLine_str_plain _ _ hq2,
    formatYamlLine_str_plain _ _ hq3, formatYamlLine_str_plain _ _ hq4]
  rw [show ("id" ++ ": " : String) = "id: " from rfl,
    show ("space_id" ++ ": " : String) = "space_id: " from rfl,
    show ("type_key" ++ ": " : String) = "type_key: " from rfl,
    show ("name" ++ ": " : String) = "name: " from rfl]


/-- C2: for a local document whose header carries the remote object's id
and space_id, a safe-mode import rewrites only the metadata header — the
body the importer extracts is byte-for-byte unchanged, and the new content
opens with a header whose id, space_id and name lines reflect the remote
object. -/
theorem C2_safe_import_frame (object : AnyTypeObject) (skip : Bool)
    (existingFm : List (String × JValue)) (existingContent : String)
    (hid : assocGet existingFm "id" = some (.str object.id))
    (hsp : assocGet existingFm "space_id" = some (.str object.space_id))
    (h1 : ¬ object.id = "") (h2 : ¬ object.space_id = "") (h3 : ¬ object.type_key = "")
    (hprops : ∀ en ∈ object.properties,
      ¬ en.1 ∈ (["id", "space_id", "type_key", "name"] : List String))
    (hq1 : needsYamlQuoting ((sanitizeForYaml (.str object.id)).getD "") = false)
    (hq2 : needsYamlQuoting ((sanitizeForYaml (.str object.space_id)).getD "") = false)
    (hq3 : needsYamlQuoting ((sanitizeForYaml (.str object.type_key)).getD "") = false)
    (hq4 : needsYamlQuoting (jsOrDefault (sanitizeForYaml (.str object.name)) "Untitled") = false)
    (hclean : headerClosesCleanly (safeImportYaml false object skip existingFm) = true) :
    extractExistingBody (safeImportUpdatedContent false object skip existingFm existingContent)
      = extractExistingBody existingContent
    ∧ ∃ rest, safeImportUpdatedContent false object skip existingFm existingContent
      = "---\n" ++ ("id: " ++ (sanitizeForYaml (.str object.id)).getD "" ++ "\n"
        ++ ("space_id: " ++ (sanitizeForYaml (.str object.space_id)).getD "" ++ "\n"
        ++ ("type_key: " ++ (sanitizeForYaml (.str object.type_key)).getD "" ++ "\n"
        ++ ("name: " ++ jsOrDefault (sanitizeForYaml (.str object.name)) "Untitled" ++ "\n"))))
        ++ rest := by
  constructor
  · exact extractExistingBody_of_clean hclean (extractExistingBody existingContent)
  · obtain ⟨extra, hextra⟩ := generateYamlFrontmatter_structure object skip
      (if (extractPreservedPropertiesForImport existingFm object).length > 0
        then some (extractPreservedPropertiesForImport existingFm object) else none)
      h1 h2 h3 hprops
    refine ⟨yamlLinesOf extra ++ ("---\n\n" ++ extractExistingBody existingContent), ?_⟩
    show safeImportYaml false object skip existingFm ++ extractExistingBody existingContent = _
    rw [show safeImportYaml false object skip existingFm
      = generateYamlFrontmatter false object skip
        (if (extractPreservedPropertiesForImport existingFm object).length > 0
          then some (extractPreservedPropertiesForImport existingFm object) else none) from rfl]
    rw [hextra, yamlLinesOf_append, yamlLinesOf_core object hq1 hq2 hq3 hq4]
    simp only [String.append_assoc, String.append_empty, String.empty_append]


theorem C2_safe_import_frame_witness :
    (¬ ("obj1" : String) = "" ∧
     headerClosesCleanly (safeImportYaml false
       ⟨"obj1", "sp1", "page", "Note", "", [("status", JValue.str "done")]⟩ true
       [("id", JValue.str "obj1"), ("space_id", JValue.str "sp1"),
        ("custom", JValue.str "keep")]) = true) ∧
    (extractExistingBody (safeImportUpdatedContent false
        ⟨"obj1", "sp1", "page", "Note", "", [("status", JValue.str "done")]⟩ true
        [("id", JValue.str "obj1"), ("space_id", JValue.str "sp1"),
         ("custom", JValue.str "keep")]
        "---\nid: obj1\nspace_id: sp1\ncustom: keep\n---\n\nBody line")
      = extractExistingBody "---\nid: obj1\nspace_id: sp1\ncustom: keep\n---\n\nBody line"
    ∧ ∃ rest, safeImportUpdatedContent false
        ⟨"obj1", "sp1", "page", "Note", "", [("status", JValue.str "done")]⟩ true
        [("id", JValue.str "obj1"), ("space_id", JValue.str "sp1"),
         ("custom", JValue.str "keep")]
        "---\nid: obj1\nspace_id: sp1\ncustom: keep\n---\n\nBody line"
      = "---\n" ++ ("id: " ++ (sanitizeForYaml (.str "obj1")).getD "" ++ "\n"
        ++ ("space_id: " ++ (sanitizeForYaml (.str "sp1")).getD "" ++ "\n"
        ++ ("type_key: " ++ (sanitizeForYaml (.str "page")).getD "" ++ "\n"
        ++ ("name: " ++ jsOrDefault (sanitizeForYaml (.str "Note")) "Untitled" ++ "\n"))))
        ++ rest) :=
  ⟨⟨by decide, by decide⟩,
   C2_safe_import_frame
     ⟨"obj1", "sp1", "page", "Note", "", [("status", JValue.str "done")]⟩ true
     [("id", JValue.str "obj1"), ("space_id", JValue.str "sp1"),
      ("custom", JValue.str "keep")]
     "---\nid: obj1\nspace_id: sp1\ncustom: keep\n---\n\nBody line"
     rfl rfl (by decide) (by decide) (by decide) (by decide)
     (by decide) (by decide) (by decide) (by decide) (by decide)⟩

end AnySync
